/-
  Verification of the Floating-Basketballs physics engine (src/physics.js).

  The engine is shallowly embedded over the reals: THREE.Vector3 becomes a
  record of three real numbers, the particle array becomes a list of particle
  records, and the per-frame `step` pipeline (pass 1 unified pair sweep,
  pass 2 iterative refinement, pass 3 integration, pass 4 idle diffusion)
  becomes a composition of folds mirroring the JavaScript loop structure
  statement by statement.  Division by a zero length is handled exactly as
  THREE.js does (a zero vector normalizes to the zero vector), which in Lean
  falls out of division by zero being zero.
-/
import Mathlib

set_option maxHeartbeats 4000000

noncomputable section

namespace Basketballs

open Classical

/-- A 3-component vector, the embedding of THREE.Vector3. -/
structure Vec3 where
  x : ℝ
  y : ℝ
  z : ℝ

namespace Vec3

@[ext] theorem ext_components {a b : Vec3} (hx : a.x = b.x) (hy : a.y = b.y) (hz : a.z = b.z) :
    a = b := by
  cases a; cases b; simp_all

instance : Inhabited Vec3 := ⟨⟨0, 0, 0⟩⟩

/-- Componentwise addition (THREE.Vector3.add). -/
def add (a b : Vec3) : Vec3 := ⟨a.x + b.x, a.y + b.y, a.z + b.z⟩

/-- Componentwise subtraction (THREE.Vector3.sub). -/
def sub (a b : Vec3) : Vec3 := ⟨a.x - b.x, a.y - b.y, a.z - b.z⟩

/-- Scalar multiplication (THREE.Vector3.multiplyScalar). -/
def smul (a : Vec3) (t : ℝ) : Vec3 := ⟨a.x * t, a.y * t, a.z * t⟩

/-- Dot product (THREE.Vector3.dot). -/
def dot (a b : Vec3) : ℝ := a.x * b.x + a.y * b.y + a.z * b.z

/-- Squared length (THREE.Vector3.lengthSq). -/
def lengthSq (a : Vec3) : ℝ := a.x * a.x + a.y * a.y + a.z * a.z

/-- Length (THREE.Vector3.length). -/
def length (a : Vec3) : ℝ := Real.sqrt a.lengthSq

/-- THREE.Vector3.addScaledVector: `a + b * t`. -/
def addScaled (a b : Vec3) (t : ℝ) : Vec3 := a.add (b.smul t)

/-- THREE.Vector3.distanceToSquared. -/
def distanceToSquared (a b : Vec3) : ℝ := (a.sub b).lengthSq

/-- THREE.Vector3.normalize: divides by the length.  THREE guards a zero
length (`divideScalar(length || 1)`), under which the zero vector maps to
itself; with real division by zero equal to zero this definition returns the
zero vector there as well, matching THREE on every input. -/
def normalize (a : Vec3) : Vec3 := a.smul (1 / a.length)

/-- THREE.Vector3.setLength: `normalize().multiplyScalar(l)`. -/
def setLength (a : Vec3) (l : ℝ) : Vec3 := a.smul (l / a.length)

end Vec3

/-- Radius of the invisible spherical boundary that contains all balls. -/
def BOUNDARY_RADIUS : ℝ := 40

/-- Number of physics sub-steps per animation frame. -/
def SUB_STEPS : ℕ := 2

/-- Number of iterative constraint-solving passes per sub-step. -/
def SOLVER_ITERATIONS : ℕ := 6

/-- Minimum distance between the camera and any ball. -/
def CAMERA_SAFE_RADIUS : ℝ := 12

/-- Coefficient of restitution for ball-to-ball bounces. -/
def RESTITUTION : ℝ := 0.85

/-- Soft repulsion aura radius, derived from the ball radius `R`. -/
def AURA_RADIUS (R : ℝ) : ℝ := R * 2.5

/-- Squared aura radius. -/
def AURA_RADIUS_SQ (R : ℝ) : ℝ := AURA_RADIUS R * AURA_RADIUS R

/-- Hard collision distance: balls closer than this are overlapping. -/
def MIN_DIST (R : ℝ) : ℝ := R * 2 + 0.05

/-- Squared hard collision distance. -/
def MIN_DIST_SQ (R : ℝ) : ℝ := MIN_DIST R * MIN_DIST R

/-- Squared camera safe radius, as computed at the top of `step`. -/
def cameraSafeRadiusSq : ℝ := CAMERA_SAFE_RADIUS * CAMERA_SAFE_RADIUS

/-- Containment edge distance, as computed at the top of `step`. -/
def edgeDist (R : ℝ) : ℝ := BOUNDARY_RADIUS - R

/-- Per-sub-step damping factor `Math.pow(0.99, 1 / SUB_STEPS)`. -/
def dampingFactor : ℝ := (0.99 : ℝ) ^ ((1 : ℝ) / (SUB_STEPS : ℝ))

/-- Per-sub-step speed cap `0.4 / SUB_STEPS`. -/
def maxSpeed : ℝ := 0.4 / (SUB_STEPS : ℝ)

/-- Kinetic-energy threshold below which idle diffusion triggers. -/
def ENERGY_THRESHOLD : ℝ := 0.05

/-- Idle-diffusion influence radius `BOUNDARY_RADIUS * 0.75`. -/
def MAX_INFLUENCE_RADIUS : ℝ := BOUNDARY_RADIUS * 0.75

/-- Squared idle-diffusion influence radius. -/
def MAX_INFLUENCE_RADIUS_SQ : ℝ := MAX_INFLUENCE_RADIUS * MAX_INFLUENCE_RADIUS

/-- One simulated body: position, velocity, visual rotation and rotation
rate, exactly the fields pushed by `initParticles`. -/
structure Particle where
  position : Vec3
  velocity : Vec3
  rotation : Vec3
  rotVel : Vec3

instance : Inhabited Particle := ⟨⟨default, default, default, default⟩⟩

/-- The simulator state: the `particles` array. -/
def State := List Particle

/-- Read particle `i` (array indexing in the JS loops is always in bounds). -/
def getP (s : State) (i : ℕ) : Particle := s.getD i default

/-- Write back both members of a pair after a pairwise interaction. -/
def setPair (s : State) (i j : ℕ) (a b : Particle) : State := (s.set i a).set j b

/-- Pass 1 treatment of the ordered pair `(i, j)`: the unified aura /
hard-collision branch of the inner loop (physics.js lines 162-207). -/
def pairStep1 (R : ℝ) (i j : ℕ) (s : State) : State :=
  let p := getP s i
  let p2 := getP s j
  let distSq := Vec3.distanceToSquared p.position p2.position
  if AURA_RADIUS_SQ R ≤ distSq ∨ distSq < 0.000001 then s
  else
    let dist := Real.sqrt distSq
    let tv := (p.position.sub p2.position).smul (1 / dist)
    if dist < MIN_DIST R then
      let correction := (MIN_DIST R - dist) * 0.55
      let pos1 := p.position.addScaled tv correction
      let pos2 := p2.position.addScaled tv (-correction)
      let relVel := p.velocity.dot tv - p2.velocity.dot tv
      if relVel < 0 then
        let impulse := max (0.005 / (SUB_STEPS : ℝ)) (-relVel * (1 + RESTITUTION)) * 0.5
        setPair s i j
          { p with position := pos1, velocity := p.velocity.addScaled tv impulse }
          { p2 with position := pos2, velocity := p2.velocity.addScaled tv (-impulse) }
      else
        setPair s i j { p with position := pos1 } { p2 with position := pos2 }
    else
      let pushForce := ((AURA_RADIUS R - dist) / AURA_RADIUS R) ^ 2 * 0.01 / (SUB_STEPS : ℝ)
      setPair s i j
        { p with velocity := p.velocity.addScaled tv pushForce }
        { p2 with velocity := p2.velocity.addScaled tv (-pushForce) }

/-- Boundary containment for body `i` (physics.js lines 214-221 and
273-279): reflect the outward velocity component (scaled 1.8) and clamp
the position onto the boundary sphere. -/
def boundaryStep (R : ℝ) (i : ℕ) (s : State) : State :=
  let p := getP s i
  let distFromCenterSq := p.position.lengthSq
  if edgeDist R * edgeDist R < distFromCenterSq then
    let tv := p.position.normalize
    let d := p.velocity.dot tv
    let v' := if 0 < d then p.velocity.addScaled tv (-d * 1.8) else p.velocity
    s.set i { p with position := p.position.setLength (edgeDist R), velocity := v' }
  else s

/-- Camera forcefield for body `i` (physics.js lines 228-236 and 282-290):
push the body out to the safe radius, reverse a closing velocity component
(scaled 1.5) and add a constant outward nudge. -/
def cameraStep (cam : Vec3) (i : ℕ) (s : State) : State :=
  let p := getP s i
  let distToCamSq := Vec3.distanceToSquared p.position cam
  if distToCamSq < cameraSafeRadiusSq then
    let distToCam := Real.sqrt distToCamSq
    let tv := (p.position.sub cam).normalize
    let pos' := p.position.addScaled tv (CAMERA_SAFE_RADIUS - distToCam)
    let d := p.velocity.dot tv
    let v1 := if d < 0 then p.velocity.addScaled tv (-d * 1.5) else p.velocity
    s.set i { p with position := pos', velocity := v1.addScaled tv 0.05 }
  else s

/-- Inner-loop index list `j = i+1, …, count-1`. -/
def innerIdx (count i : ℕ) : List ℕ := List.range' (i + 1) (count - (i + 1))

/-- One iteration of Pass 1's outer loop: kinetic-energy accumulation (first
sub-step only), the pairwise sweep over `j > i`, then boundary containment
and the camera forcefield for body `i`. -/
def pass1Body (R : ℝ) (cam : Vec3) (count sub : ℕ) (acc : State × ℝ) (i : ℕ) :
    State × ℝ :=
  let ke := if sub = 0 then acc.2 + (getP acc.1 i).velocity.lengthSq else acc.2
  let s1 := (innerIdx count i).foldl (fun t j => pairStep1 R i j t) acc.1
  (cameraStep cam i (boundaryStep R i s1), ke)

/-- Pass 1: the unified pair loop, returning the updated state and the
kinetic energy accumulated during this sub-step (physics.js lines 153-237). -/
def pass1 (R : ℝ) (cam : Vec3) (count sub : ℕ) (s : State) : State × ℝ :=
  (List.range count).foldl (pass1Body R cam count sub) (s, 0)

/-- Pass 2 treatment of the ordered pair `(i, j)`: the hard-collision-only
re-resolution (physics.js lines 248-269). -/
def pairStep2 (R : ℝ) (i j : ℕ) (s : State) : State :=
  let p := getP s i
  let p2 := getP s j
  let distSq := Vec3.distanceToSquared p.position p2.position
  if distSq < MIN_DIST_SQ R ∧ 0.000001 < distSq then
    let dist := Real.sqrt distSq
    let tv := (p.position.sub p2.position).smul (1 / dist)
    let correction := (MIN_DIST R - dist) * 0.55
    let pos1 := p.position.addScaled tv correction
    let pos2 := p2.position.addScaled tv (-correction)
    let relVel := p.velocity.dot tv - p2.velocity.dot tv
    if relVel < 0 then
      let impulse := max (0.005 / (SUB_STEPS : ℝ)) (-relVel * (1 + RESTITUTION)) * 0.5
      setPair s i j
        { p with position := pos1, velocity := p.velocity.addScaled tv impulse }
        { p2 with position := pos2, velocity := p2.velocity.addScaled tv (-impulse) }
    else
      setPair s i j { p with position := pos1 } { p2 with position := pos2 }
  else s

/-- One iteration of Pass 2's outer loop for body `i`: the hard-collision
sweep over `j > i`, then boundary and camera re-enforcement. -/
def pass2Body (R : ℝ) (cam : Vec3) (count : ℕ) (s : State) (i : ℕ) : State :=
  cameraStep cam i
    (boundaryStep R i ((innerIdx count i).foldl (fun t j => pairStep2 R i j t) s))

/-- One full solver iteration of Pass 2 over all bodies. -/
def pass2Iter (R : ℝ) (cam : Vec3) (count : ℕ) (s : State) : State :=
  (List.range count).foldl (pass2Body R cam count) s

/-- Pass 2: `SOLVER_ITERATIONS - 1` additional solver iterations
(physics.js lines 245-292). -/
def pass2 (R : ℝ) (cam : Vec3) (count : ℕ) (s : State) : State :=
  (List.range (SOLVER_ITERATIONS - 1)).foldl (fun t _ => pass2Iter R cam count t) s

/-- Pass 3 treatment of one body: damping, exact direction-preserving
speed clamp, then position update (physics.js lines 302-306). -/
def integrateP (p : Particle) : Particle :=
  let v1 := p.velocity.smul dampingFactor
  let v2 := if maxSpeed * maxSpeed < v1.lengthSq then v1.setLength maxSpeed else v1
  { p with velocity := v2, position := p.position.add v2 }

/-- Pass 3 integration of body `i`. -/
def integrateBody (s : State) (i : ℕ) : State := s.set i (integrateP (getP s i))

/-- Pass 3: velocity integration over all bodies. -/
def pass3 (count : ℕ) (s : State) : State :=
  (List.range count).foldl integrateBody s

/-- Pass 4 treatment of the ordered pair `(i, j)`: the idle-diffusion push
(physics.js lines 324-338). -/
def pairStep4 (force : ℝ) (R : ℝ) (i j : ℕ) (s : State) : State :=
  let p := getP s i
  let p2 := getP s j
  let distSq := Vec3.distanceToSquared p.position p2.position
  if MIN_DIST_SQ R < distSq ∧ distSq < MAX_INFLUENCE_RADIUS_SQ then
    let dist := Real.sqrt distSq
    let tv := (p.position.sub p2.position).smul (1 / dist)
    let push := force * (1 - dist / MAX_INFLUENCE_RADIUS)
    setPair s i j
      { p with velocity := p.velocity.addScaled tv push }
      { p2 with velocity := p2.velocity.addScaled tv (-push) }
  else s

/-- Pass 4: homogeneous idle diffusion over all pairs. -/
def pass4 (force : ℝ) (R : ℝ) (count : ℕ) (s : State) : State :=
  (List.range count).foldl
    (fun t i => (innerIdx count i).foldl (fun u j => pairStep4 force R i j u) t) s

/-- One sub-step of `step`: passes 1-3 always; pass 4 only on the final
sub-step and only if the sub-step's `totalKineticEnergy` variable is below
the threshold (physics.js lines 316-340).  Note the variable is declared
afresh inside every sub-step and only accumulated when `sub = 0`. -/
def subStep (R : ℝ) (cam : Vec3) (count : ℕ) (s : State) (sub : ℕ) : State :=
  let pr := pass1 R cam count sub s
  let s3 := pass3 count (pass2 R cam count pr.1)
  if sub = SUB_STEPS - 1 ∧ pr.2 < ENERGY_THRESHOLD then
    pass4 ((ENERGY_THRESHOLD - pr.2) * 0.003) R count s3
  else s3

/-- PhysicsSimulator.step: `SUB_STEPS` repetitions of the 4-pass pipeline. -/
def step (R : ℝ) (cam : Vec3) (count : ℕ) (s : State) : State :=
  (List.range SUB_STEPS).foldl (subStep R cam count) s

/-- A sequence of frames: `step` once per supplied camera position. -/
def runSteps (R : ℝ) (count : ℕ) (s : State) (cams : List Vec3) : State :=
  cams.foldl (fun t c => step R c count t) s

/-- The per-body rotation advance performed by updateInstances
(physics.js lines 358-360). -/
def rotAdv (p : Particle) : Particle := { p with rotation := p.rotation.add p.rotVel }

/-- PhysicsSimulator.updateInstances, restricted to its effect on the
particle state: advance each body's rotation by its constant `rotVel`;
everything else it does writes to external instanced-mesh buffers. -/
def updateInstances (s : State) : State := s.map rotAdv

/-- One candidate position: three consecutive `Math.random()` draws mapped
over the cube of half-width `BOUNDARY_RADIUS * 0.75` (physics.js 112-116). -/
def cubeDraw (rand : ℕ → ℝ) (cur : ℕ) : Vec3 :=
  ⟨(rand cur - 0.5) * BOUNDARY_RADIUS * 1.5,
   (rand (cur + 1) - 0.5) * BOUNDARY_RADIUS * 1.5,
   (rand (cur + 2) - 0.5) * BOUNDARY_RADIUS * 1.5⟩

/-- The rejection test: `particles.some(p => p.position.distanceToSquared(pos) < minDistSq)`. -/
def overlapsPrev (prev : List Particle) (minDistSq : ℝ) (pos : Vec3) : Prop :=
  ∃ p ∈ prev, Vec3.distanceToSquared p.position pos < minDistSq

/-- The do-while placement loop for one body, with `fuel` draws remaining
(called with fuel 201: the JS loop breaks unconditionally once `attempts`
exceeds 200, so the 201st candidate is accepted regardless of overlap).
Returns the accepted position and the advanced draw cursor. -/
def place (rand : ℕ → ℝ) (prev : List Particle) (minDistSq : ℝ) :
    ℕ → ℕ → Vec3 × ℕ
  | cur, 0 => (cubeDraw rand cur, cur + 3)
  | cur, fuel + 1 =>
      let c := cubeDraw rand cur
      if fuel = 0 then (c, cur + 3)
      else if overlapsPrev prev minDistSq c then place rand prev minDistSq (cur + 3) fuel
      else (c, cur + 3)

/-- Build the pushed particle record: accepted position, zero velocity,
random rotation in `[0, π)` per axis, random spin in `[-0.01, 0.01)` per
axis (physics.js lines 121-130). -/
def mkParticle (rand : ℕ → ℝ) (pos : Vec3) (cur : ℕ) : Particle :=
  { position := pos
    velocity := ⟨0, 0, 0⟩
    rotation := ⟨rand cur * Real.pi, rand (cur + 1) * Real.pi, rand (cur + 2) * Real.pi⟩
    rotVel := ⟨(rand (cur + 3) - 0.5) * 0.02, (rand (cur + 4) - 0.5) * 0.02,
               (rand (cur + 5) - 0.5) * 0.02⟩ }

/-- PhysicsSimulator.initParticles: place `count` bodies by rejection
sampling, threading the `Math.random()` stream through an explicit cursor. -/
def initParticles (rand : ℕ → ℝ) (count : ℕ) (R : ℝ) : List Particle :=
  ((List.range count).foldl
    (fun (acc : List Particle × ℕ) _ =>
      let pr := place rand acc.1 ((R * 2.1) * (R * 2.1)) acc.2 201
      (acc.1 ++ [mkParticle rand pr.1 pr.2], pr.2 + 6))
    ([], 0)).1

/-! ### Basic vector lemmas -/

namespace Vec3

theorem lengthSq_nonneg (a : Vec3) : 0 ≤ a.lengthSq :=
  add_nonneg (add_nonneg (mul_self_nonneg _) (mul_self_nonneg _)) (mul_self_nonneg _)

theorem length_nonneg (a : Vec3) : 0 ≤ a.length := Real.sqrt_nonneg _

theorem length_mul_self (a : Vec3) : a.length * a.length = a.lengthSq :=
  Real.mul_self_sqrt a.lengthSq_nonneg

theorem lengthSq_add (a b : Vec3) :
    (a.add b).lengthSq = a.lengthSq + 2 * a.dot b + b.lengthSq := by
  simp only [add, lengthSq, dot]; ring

theorem abs_dot_le (a b : Vec3) : |a.dot b| ≤ a.length * b.length := by
  have hsq : (a.dot b) * (a.dot b) ≤ a.lengthSq * b.lengthSq := by
    simp only [dot, lengthSq]
    nlinarith [sq_nonneg (a.x * b.y - a.y * b.x), sq_nonneg (a.x * b.z - a.z * b.x),
      sq_nonneg (a.y * b.z - a.z * b.y)]
  have h1 : |a.dot b| = Real.sqrt ((a.dot b) * (a.dot b)) :=
    (Real.sqrt_mul_self_eq_abs _).symm
  rw [h1, show a.length * b.length = Real.sqrt (a.lengthSq * b.lengthSq) by
    rw [Real.sqrt_mul a.lengthSq_nonneg]; rfl]
  exact Real.sqrt_le_sqrt hsq

theorem dot_le_length_mul (a b : Vec3) : a.dot b ≤ a.length * b.length :=
  le_trans (le_abs_self _) (abs_dot_le a b)

theorem length_add_le (a b : Vec3) : (a.add b).length ≤ a.length + b.length := by
  have h : (a.add b).lengthSq ≤ (a.length + b.length) ^ 2 := by
    have := dot_le_length_mul a b
    have ha := a.length_mul_self
    have hb := b.length_mul_self
    rw [lengthSq_add]; nlinarith
  calc (a.add b).length = Real.sqrt (a.add b).lengthSq := rfl
    _ ≤ Real.sqrt ((a.length + b.length) ^ 2) := Real.sqrt_le_sqrt h
    _ = a.length + b.length :=
        Real.sqrt_sq (by have := a.length_nonneg; have := b.length_nonneg; linarith)

theorem length_smul (a : Vec3) (t : ℝ) : (a.smul t).length = |t| * a.length := by
  unfold length smul lengthSq
  rw [show a.x * t * (a.x * t) + a.y * t * (a.y * t) + a.z * t * (a.z * t)
      = (t * t) * (a.x * a.x + a.y * a.y + a.z * a.z) by ring,
    Real.sqrt_mul (mul_self_nonneg t), Real.sqrt_mul_self_eq_abs]

theorem sub_eq_add_neg_smul (a b : Vec3) : a.sub b = a.add (b.smul (-1)) := by
  simp only [sub, add, smul]; ext <;> ring

theorem length_setLength (a : Vec3) (l : ℝ) (hl : 0 ≤ l) (ha : a.lengthSq ≠ 0) :
    (a.setLength l).length = l := by
  have hlen : a.length ≠ 0 := by
    intro h
    exact ha (by rw [← a.length_mul_self, h, mul_zero])
  have hpos : 0 < a.length := lt_of_le_of_ne a.length_nonneg (Ne.symm hlen)
  rw [setLength, length_smul, abs_of_nonneg (div_nonneg hl a.length_nonneg),
    div_mul_cancel₀ _ hlen]

/-- Separation between two points after both are displaced by opposite
multiples of the same vector. -/
theorem sub_addScaled_addScaled (a b n : Vec3) (t : ℝ) :
    ((a.addScaled n t).sub (b.addScaled n (-t))) = (a.sub b).add (n.smul (2 * t)) := by
  simp only [addScaled, add, sub, smul]; ext <;> ring

end Vec3

/-! ### State access lemmas -/

theorem getP_set_self (s : State) (i : ℕ) (p : Particle) (h : i < s.length) :
    getP (s.set i p) i = p := by
  simp [getP, List.getD_eq_getElem?_getD, List.getElem?_set_self, h]

theorem getP_set_ne (s : State) (i m : ℕ) (p : Particle) (h : m ≠ i) :
    getP (s.set i p) m = getP s m := by
  simp [getP, List.getD_eq_getElem?_getD, List.getElem?_set_ne (Ne.symm h)]

theorem length_setPair (s : State) (i j : ℕ) (a b : Particle) :
    (setPair s i j a b).length = s.length := by
  simp [setPair]

theorem getP_setPair_left (s : State) (i j : ℕ) (a b : Particle)
    (hij : i ≠ j) (hi : i < s.length) : getP (setPair s i j a b) i = a := by
  rw [setPair, getP_set_ne _ _ _ _ hij, getP_set_self _ _ _ hi]

theorem getP_setPair_right (s : State) (i j : ℕ) (a b : Particle)
    (hj : j < s.length) : getP (setPair s i j a b) j = b := by
  rw [setPair, getP_set_self _ _ _ (by simpa using hj)]

theorem getP_setPair_other (s : State) (i j m : ℕ) (a b : Particle)
    (hmi : m ≠ i) (hmj : m ≠ j) : getP (setPair s i j a b) m = getP s m := by
  rw [setPair, getP_set_ne _ _ _ _ hmj, getP_set_ne _ _ _ _ hmi]

/-! ### Length preservation and locality of the elementary operations -/

theorem length_pairStep1 (R : ℝ) (i j : ℕ) (s : State) :
    (pairStep1 R i j s).length = s.length := by
  simp only [pairStep1]; split_ifs <;> simp [length_setPair]

theorem length_pairStep2 (R : ℝ) (i j : ℕ) (s : State) :
    (pairStep2 R i j s).length = s.length := by
  simp only [pairStep2]; split_ifs <;> simp [length_setPair]

theorem length_pairStep4 (f R : ℝ) (i j : ℕ) (s : State) :
    (pairStep4 f R i j s).length = s.length := by
  simp only [pairStep4]; split_ifs <;> simp [length_setPair]

theorem length_boundaryStep (R : ℝ) (i : ℕ) (s : State) :
    (boundaryStep R i s).length = s.length := by
  simp only [boundaryStep]; split_ifs <;> simp

theorem length_cameraStep (cam : Vec3) (i : ℕ) (s : State) :
    (cameraStep cam i s).length = s.length := by
  simp only [cameraStep]; split_ifs <;> simp

theorem length_integrateBody (s : State) (i : ℕ) :
    (integrateBody s i).length = s.length := by
  simp [integrateBody]

/-- Generic fold lemma: a fold of length-preserving operations preserves
the particle count. -/
theorem length_foldl {α : Type} (f : State → α → State) (l : List α) (s : State)
    (h : ∀ t a, (f t a).length = t.length) : (l.foldl f s).length = s.length := by
  induction l generalizing s with
  | nil => rfl
  | cons a l ih => rw [List.foldl_cons, ih, h]

theorem length_pass1 (R : ℝ) (cam : Vec3) (count sub : ℕ) (s : State) :
    (pass1 R cam count sub s).1.length = s.length := by
  unfold pass1
  have key : ∀ (l : List ℕ) (acc : State × ℝ),
      (l.foldl (pass1Body R cam count sub) acc).1.length = acc.1.length := by
    intro l
    induction l with
    | nil => intro acc; rfl
    | cons a l ih =>
        intro acc
        rw [List.foldl_cons, ih]
        simp only [pass1Body, length_cameraStep, length_boundaryStep]
        exact length_foldl _ _ _ (fun t j => length_pairStep1 R a j t)
  exact key _ _

theorem length_pass2Iter (R : ℝ) (cam : Vec3) (count : ℕ) (s : State) :
    (pass2Iter R cam count s).length = s.length := by
  refine length_foldl _ _ _ (fun t i => ?_)
  simp only [pass2Body, length_cameraStep, length_boundaryStep]
  exact length_foldl _ _ _ (fun u j => length_pairStep2 R i j u)

theorem length_pass2 (R : ℝ) (cam : Vec3) (count : ℕ) (s : State) :
    (pass2 R cam count s).length = s.length :=
  length_foldl _ _ _ (fun t _ => length_pass2Iter R cam count t)

theorem length_pass3 (count : ℕ) (s : State) : (pass3 count s).length = s.length :=
  length_foldl _ _ _ length_integrateBody

theorem length_pass4 (f R : ℝ) (count : ℕ) (s : State) :
    (pass4 f R count s).length = s.length :=
  length_foldl _ _ _ (fun t i => length_foldl _ _ _ (fun u j => length_pairStep4 f R i j u))

theorem length_subStep (R : ℝ) (cam : Vec3) (count : ℕ) (s : State) (sub : ℕ) :
    (subStep R cam count s sub).length = s.length := by
  simp only [subStep]
  split_ifs <;>
    simp [length_pass4, length_pass3, length_pass2, length_pass1]

theorem length_step (R : ℝ) (cam : Vec3) (count : ℕ) (s : State) :
    (step R cam count s).length = s.length :=
  length_foldl _ _ _ (fun t sub => length_subStep R cam count t sub)

theorem getP_pairStep1_other (R : ℝ) (i j m : ℕ) (s : State)
    (hmi : m ≠ i) (hmj : m ≠ j) : getP (pairStep1 R i j s) m = getP s m := by
  simp only [pairStep1]
  split_ifs <;> first | rfl | rw [getP_setPair_other _ _ _ _ _ _ hmi hmj]

theorem getP_pairStep2_other (R : ℝ) (i j m : ℕ) (s : State)
    (hmi : m ≠ i) (hmj : m ≠ j) : getP (pairStep2 R i j s) m = getP s m := by
  simp only [pairStep2]
  split_ifs <;> first | rfl | rw [getP_setPair_other _ _ _ _ _ _ hmi hmj]

theorem getP_pairStep4_other (f R : ℝ) (i j m : ℕ) (s : State)
    (hmi : m ≠ i) (hmj : m ≠ j) : getP (pairStep4 f R i j s) m = getP s m := by
  simp only [pairStep4]
  split_ifs <;> first | rfl | rw [getP_setPair_other _ _ _ _ _ _ hmi hmj]

theorem getP_boundaryStep_other (R : ℝ) (i m : ℕ) (s : State) (hmi : m ≠ i) :
    getP (boundaryStep R i s) m = getP s m := by
  simp only [boundaryStep]
  split_ifs <;> first | rfl | rw [getP_set_ne _ _ _ _ hmi]

theorem getP_cameraStep_other (cam : Vec3) (i m : ℕ) (s : State) (hmi : m ≠ i) :
    getP (cameraStep cam i s) m = getP s m := by
  simp only [cameraStep]
  split_ifs <;> first | rfl | rw [getP_set_ne _ _ _ _ hmi]

theorem getP_integrateBody_other (s : State) (i m : ℕ) (hmi : m ≠ i) :
    getP (integrateBody s i) m = getP s m := by
  rw [integrateBody, getP_set_ne _ _ _ _ hmi]

/-- Generic fold lemma: an index untouched by every step of a fold keeps
its particle. -/
theorem getP_foldl_untouched {α : Type} (f : State → α → State) (l : List α)
    (s : State) (m : ℕ) (h : ∀ t a, a ∈ l → getP (f t a) m = getP t m) :
    getP (l.foldl f s) m = getP s m := by
  induction l generalizing s with
  | nil => rfl
  | cons a l ih =>
      rw [List.foldl_cons, ih _ (fun t b hb => h t b (List.mem_cons_of_mem a hb)),
        h s a (List.mem_cons_self a l)]

theorem mem_innerIdx {count i j : ℕ} (h : j ∈ innerIdx count i) : i < j := by
  have := List.mem_range'.1 h
  omega

/-- Bodies with index below `i` are untouched by the Pass 2 block of body `i`. -/
theorem getP_pass2Body_lt (R : ℝ) (cam : Vec3) (count : ℕ) (s : State) (i m : ℕ)
    (hm : m < i) : getP (pass2Body R cam count s i) m = getP s m := by
  simp only [pass2Body]
  rw [getP_cameraStep_other _ _ _ _ (by omega), getP_boundaryStep_other _ _ _ _ (by omega)]
  refine getP_foldl_untouched _ _ _ _ (fun t j hj => ?_)
  have := mem_innerIdx hj
  exact getP_pairStep2_other _ _ _ _ _ (by omega) (by omega)

/-- A state predicate preserved by every step of a fold holds of the result. -/
theorem foldl_range_pres (f : State → ℕ → State) (Q : State → Prop)
    (hQ : ∀ t i, Q t → Q (f t i)) :
    ∀ (l : List ℕ) (s : State), Q s → Q (l.foldl f s) := by
  intro l
  induction l with
  | nil => exact fun s hs => hs
  | cons a l ih => exact fun s hs => ih _ (hQ s a hs)

/-- Invariant establishment for a body-indexed fold over `List.range n`:
if the step at index `i` never rewrites bodies below `i` and establishes
`P` for body `i`, then after the fold `P` holds of every body below `n`.
`Q` is an auxiliary state invariant (particle count) available to the step. -/
theorem foldl_range_establishes (f : State → ℕ → State) (P : Particle → Prop)
    (Q : State → Prop) (N : ℕ)
    (hQ : ∀ t i, Q t → Q (f t i))
    (hloc : ∀ t i m, m < i → getP (f t i) m = getP t m)
    (hstep : ∀ t i, Q t → i < N → P (getP (f t i) i)) :
    ∀ n, n ≤ N → ∀ (s : State), Q s → ∀ m < n, P (getP ((List.range n).foldl f s) m) := by
  intro n
  induction n with
  | zero => intro _ s _ m hm; omega
  | succ n ih =>
      intro hn s hs m hm
      rw [List.range_succ, List.foldl_append, List.foldl_cons, List.foldl_nil]
      rcases Nat.lt_or_ge m n with h | h
      · rw [hloc _ _ _ h]
        exact ih (by omega) s hs m h
      · have hmn : m = n := by omega
        subst hmn
        exact hstep _ _ (foldl_range_pres f Q hQ _ _ hs) (by omega)

/-! ### Claim C6: the Pass 1 pair branch -/

/-- C6.  In Pass 1, for a pair at squared distance at least the numerical
noise floor and true distance strictly below `minSeparation`, each body is
displaced 55% of the penetration depth in opposite directions along the
unit separation axis, and an equal-and-opposite impulse of magnitude
`max(0.005/SUB_STEPS, -relVel*(1+RESTITUTION))*0.5` is applied exactly when
the relative velocity along the axis is closing; pairs at or beyond the
squared aura radius, or below the noise floor, are left untouched.
(The hypothesis `0.1 ≤ R` makes `minSeparation ≤ auraRadius`, as with every
radius the simulator is actually constructed with.) -/
theorem pass1_hard_collision_exact (R : ℝ) (hR : 0.1 ≤ R) (s : State) (i j : ℕ)
    (hij : i ≠ j) (hi : i < s.length) (hj : j < s.length) :
    (∀ (_ : 0.000001 ≤ Vec3.distanceToSquared (getP s i).position (getP s j).position)
       (_ : Real.sqrt (Vec3.distanceToSquared (getP s i).position (getP s j).position) <
              MIN_DIST R),
      (getP (pairStep1 R i j s) i).position =
          (getP s i).position.addScaled
            (((getP s i).position.sub (getP s j).position).smul
              (1 / Real.sqrt (Vec3.distanceToSquared (getP s i).position (getP s j).position)))
            ((MIN_DIST R -
              Real.sqrt (Vec3.distanceToSquared (getP s i).position (getP s j).position)) * 0.55)
      ∧ (getP (pairStep1 R i j s) j).position =
          (getP s j).position.addScaled
            (((getP s i).position.sub (getP s j).position).smul
              (1 / Real.sqrt (Vec3.distanceToSquared (getP s i).position (getP s j).position)))
            (-((MIN_DIST R -
              Real.sqrt (Vec3.distanceToSquared (getP s i).position (getP s j).position)) * 0.55))
      ∧ ((getP s i).velocity.dot
              (((getP s i).position.sub (getP s j).position).smul
                (1 / Real.sqrt (Vec3.distanceToSquared (getP s i).position (getP s j).position)))
            - (getP s j).velocity.dot
              (((getP s i).position.sub (getP s j).position).smul
                (1 / Real.sqrt (Vec3.distanceToSquared (getP s i).position (getP s j).position)))
            < 0 →
          (getP (pairStep1 R i j s) i).velocity =
            (getP s i).velocity.addScaled
              (((getP s i).position.sub (getP s j).position).smul
                (1 / Real.sqrt (Vec3.distanceToSquared (getP s i).position (getP s j).position)))
              (max (0.005 / (SUB_STEPS : ℝ))
                (-((getP s i).velocity.dot
                    (((getP s i).position.sub (getP s j).position).smul
                      (1 / Real.sqrt (Vec3.distanceToSquared (getP s i).position (getP s j).position)))
                  - (getP s j).velocity.dot
                    (((getP s i).position.sub (getP s j).position).smul
                      (1 / Real.sqrt (Vec3.distanceToSquared (getP s i).position (getP s j).position))))
                  * (1 + RESTITUTION)) * 0.5)
          ∧ (getP (pairStep1 R i j s) j).velocity =
            (getP s j).velocity.addScaled
              (((getP s i).position.sub (getP s j).position).smul
                (1 / Real.sqrt (Vec3.distanceToSquared (getP s i).position (getP s j).position)))
              (-(max (0.005 / (SUB_STEPS : ℝ))
                (-((getP s i).velocity.dot
                    (((getP s i).position.sub (getP s j).position).smul
                      (1 / Real.sqrt (Vec3.distanceToSquared (getP s i).position (getP s j).position)))
                  - (getP s j).velocity.dot
                    (((getP s i).position.sub (getP s j).position).smul
                      (1 / Real.sqrt (Vec3.distanceToSquared (getP s i).position (getP s j).position))))
                  * (1 + RESTITUTION)) * 0.5)))
      ∧ (0 ≤ (getP s i).velocity.dot
              (((getP s i).position.sub (getP s j).position).smul
                (1 / Real.sqrt (Vec3.distanceToSquared (getP s i).position (getP s j).position)))
            - (getP s j).velocity.dot
              (((getP s i).position.sub (getP s j).position).smul
                (1 / Real.sqrt (Vec3.distanceToSquared (getP s i).position (getP s j).position))) →
          (getP (pairStep1 R i j s) i).velocity = (getP s i).velocity
          ∧ (getP (pairStep1 R i j s) j).velocity = (getP s j).velocity))
    ∧ (∀ (_ : AURA_RADIUS_SQ R ≤ Vec3.distanceToSquared (getP s i).position (getP s j).position ∨
          Vec3.distanceToSquared (getP s i).position (getP s j).position < 0.000001),
        pairStep1 R i j s = s) := by
  constructor
  · intro hfloor hhard
    have hd0 : (0 : ℝ) ≤ Vec3.distanceToSquared (getP s i).position (getP s j).position :=
      Vec3.lengthSq_nonneg _
    have hmin_aura : MIN_DIST R ≤ AURA_RADIUS R := by
      unfold MIN_DIST AURA_RADIUS; linarith
    have haura_pos : 0 ≤ AURA_RADIUS R := by unfold AURA_RADIUS; linarith
    have hgate : ¬(AURA_RADIUS_SQ R ≤ Vec3.distanceToSquared (getP s i).position (getP s j).position ∨
        Vec3.distanceToSquared (getP s i).position (getP s j).position < 0.000001) := by
      push_neg
      refine ⟨?_, hfloor⟩
      have hda : Real.sqrt (Vec3.distanceToSquared (getP s i).position (getP s j).position) <
          AURA_RADIUS R := lt_of_lt_of_le hhard hmin_aura
      have := Real.sq_sqrt hd0
      unfold AURA_RADIUS_SQ
      nlinarith [Real.sqrt_nonneg (Vec3.distanceToSquared (getP s i).position (getP s j).position)]
    by_cases hrel : (getP s i).velocity.dot
          (((getP s i).position.sub (getP s j).position).smul
            (1 / Real.sqrt (Vec3.distanceToSquared (getP s i).position (getP s j).position)))
        - (getP s j).velocity.dot
          (((getP s i).position.sub (getP s j).position).smul
            (1 / Real.sqrt (Vec3.distanceToSquared (getP s i).position (getP s j).position)))
        < 0
    · have heval : pairStep1 R i j s = setPair s i j
          { getP s i with
            position := (getP s i).position.addScaled
              (((getP s i).position.sub (getP s j).position).smul
                (1 / Real.sqrt (Vec3.distanceToSquared (getP s i).position (getP s j).position)))
              ((MIN_DIST R -
                Real.sqrt (Vec3.distanceToSquared (getP s i).position (getP s j).position)) * 0.55)
            velocity := (getP s i).velocity.addScaled
              (((getP s i).position.sub (getP s j).position).smul
                (1 / Real.sqrt (Vec3.distanceToSquared (getP s i).position (getP s j).position)))
              (max (0.005 / (SUB_STEPS : ℝ))
                (-((getP s i).velocity.dot
                    (((getP s i).position.sub (getP s j).position).smul
                      (1 / Real.sqrt (Vec3.distanceToSquared (getP s i).position (getP s j).position)))
                  - (getP s j).velocity.dot
                    (((getP s i).position.sub (getP s j).position).smul
                      (1 / Real.sqrt (Vec3.distanceToSquared (getP s i).position (getP s j).position))))
                  * (1 + RESTITUTION)) * 0.5) }
          { getP s j with
            position := (getP s j).position.addScaled
              (((getP s i).position.sub (getP s j).position).smul
                (1 / Real.sqrt (Vec3.distanceToSquared (getP s i).position (getP s j).position)))
              (-((MIN_DIST R -
                Real.sqrt (Vec3.distanceToSquared (getP s i).position (getP s j).position)) * 0.55))
            velocity := (getP s j).velocity.addScaled
              (((getP s i).position.sub (getP s j).position).smul
                (1 / Real.sqrt (Vec3.distanceToSquared (getP s i).position (getP s j).position)))
              (-(max (0.005 / (SUB_STEPS : ℝ))
                (-((getP s i).velocity.dot
                    (((getP s i).position.sub (getP s j).position).smul
                      (1 / Real.sqrt (Vec3.distanceToSquared (getP s i).position (getP s j).position)))
                  - (getP s j).velocity.dot
                    (((getP s i).position.sub (getP s j).position).smul
                      (1 / Real.sqrt (Vec3.distanceToSquared (getP s i).position (getP s j).position))))
                  * (1 + RESTITUTION)) * 0.5)) } := by
        simp only [pairStep1]
        rw [if_neg hgate, if_pos hhard, if_pos hrel]
      rw [heval, getP_setPair_left _ _ _ _ _ hij hi, getP_setPair_right _ _ _ _ _ hj]
      exact ⟨rfl, rfl, fun _ => ⟨rfl, rfl⟩, fun habs => absurd hrel (not_lt.2 habs)⟩
    · have heval : pairStep1 R i j s = setPair s i j
          { getP s i with
            position := (getP s i).position.addScaled
              (((getP s i).position.sub (getP s j).position).smul
                (1 / Real.sqrt (Vec3.distanceToSquared (getP s i).position (getP s j).position)))
              ((MIN_DIST R -
                Real.sqrt (Vec3.distanceToSquared (getP s i).position (getP s j).position)) * 0.55) }
          { getP s j with
            position := (getP s j).position.addScaled
              (((getP s i).position.sub (getP s j).position).smul
                (1 / Real.sqrt (Vec3.distanceToSquared (getP s i).position (getP s j).position)))
              (-((MIN_DIST R -
                Real.sqrt (Vec3.distanceToSquared (getP s i).position (getP s j).position)) * 0.55)) } := by
        simp only [pairStep1]
        rw [if_neg hgate, if_pos hhard, if_neg hrel]
      rw [heval, getP_setPair_left _ _ _ _ _ hij hi, getP_setPair_right _ _ _ _ _ hj]
      exact ⟨rfl, rfl, fun hc => absurd hc hrel, fun _ => ⟨rfl, rfl⟩⟩
  · intro hskip
    simp only [pairStep1]
    rw [if_pos hskip]

/-! ### Claim C10: pairwise interactions preserve the pair's momentum -/

/-- C10.  Every pairwise velocity interaction of `step` — the hard-collision
impulse of Pass 1 and Pass 2, the soft-aura push, and the idle-diffusion
push — adds equal-and-opposite velocity increments: the vector sum of the
two bodies' velocities is unchanged by each of the three pair operations. -/
theorem pair_interactions_preserve_momentum (R force : ℝ) (s : State) (i j : ℕ)
    (hij : i ≠ j) (hi : i < s.length) (hj : j < s.length) :
    ((getP (pairStep1 R i j s) i).velocity.add (getP (pairStep1 R i j s) j).velocity
        = (getP s i).velocity.add (getP s j).velocity)
    ∧ ((getP (pairStep2 R i j s) i).velocity.add (getP (pairStep2 R i j s) j).velocity
        = (getP s i).velocity.add (getP s j).velocity)
    ∧ ((getP (pairStep4 force R i j s) i).velocity.add (getP (pairStep4 force R i j s) j).velocity
        = (getP s i).velocity.add (getP s j).velocity) := by
  refine ⟨?_, ?_, ?_⟩
  · simp only [pairStep1]
    split_ifs <;>
      first
        | rfl
        | · rw [getP_setPair_left _ _ _ _ _ hij hi, getP_setPair_right _ _ _ _ _ hj]
            all_goals simp only [Vec3.add, Vec3.addScaled, Vec3.smul]
            all_goals ext <;> ring
  · simp only [pairStep2]
    split_ifs <;>
      first
        | rfl
        | · rw [getP_setPair_left _ _ _ _ _ hij hi, getP_setPair_right _ _ _ _ _ hj]
            all_goals simp only [Vec3.add, Vec3.addScaled, Vec3.smul]
            all_goals ext <;> ring
  · simp only [pairStep4]
    split_ifs <;>
      first
        | rfl
        | · rw [getP_setPair_left _ _ _ _ _ hij hi, getP_setPair_right _ _ _ _ _ hj]
            all_goals simp only [Vec3.add, Vec3.addScaled, Vec3.smul]
            all_goals ext <;> ring

/-! ### Claim C8: determinism of step sequences -/

/-- C8.  `step` is deterministic: two runs from identical body state fed
identical camera-position sequences produce identical final states.  The
embedded pipeline is a pure function of the state and the camera inputs;
there is no other input. -/
theorem step_deterministic (R : ℝ) (count : ℕ) (s₁ s₂ : State)
    (cams₁ cams₂ : List Vec3) (hs : s₁ = s₂) (hc : cams₁ = cams₂) :
    runSteps R count s₁ cams₁ = runSteps R count s₂ cams₂ := by
  rw [hs, hc]

/-! ### Concrete two-body state used by several witnesses -/

/-- A ball at `(1,0,0)` moving toward the origin. -/
def ballA : Particle := ⟨⟨1, 0, 0⟩, ⟨-1, 0, 0⟩, ⟨0, 0, 0⟩, ⟨0, 0, 0⟩⟩

/-- A ball at rest at the origin. -/
def ballB : Particle := ⟨⟨0, 0, 0⟩, ⟨0, 0, 0⟩, ⟨0, 0, 0⟩, ⟨0, 0, 0⟩⟩

/-- Two overlapping balls, used as a concrete hard-collision input. -/
def twoBalls : State := [ballA, ballB]

theorem twoBalls_distSq :
    Vec3.distanceToSquared (getP twoBalls 0).position (getP twoBalls 1).position = 1 := by
  show Vec3.distanceToSquared ballA.position ballB.position = 1
  simp only [ballA, ballB, Vec3.distanceToSquared, Vec3.sub, Vec3.lengthSq]
  norm_num

/-- Witness for C6 at the concrete state `twoBalls` (distance 1, radius 1). -/
theorem pass1_hard_collision_exact_witness :
    (getP (pairStep1 1 0 1 twoBalls) 0).position =
      (getP twoBalls 0).position.addScaled
        (((getP twoBalls 0).position.sub (getP twoBalls 1).position).smul
          (1 / Real.sqrt (Vec3.distanceToSquared (getP twoBalls 0).position
            (getP twoBalls 1).position)))
        ((MIN_DIST 1 - Real.sqrt (Vec3.distanceToSquared (getP twoBalls 0).position
            (getP twoBalls 1).position)) * 0.55) := by
  have h := (pass1_hard_collision_exact 1 (by norm_num) twoBalls 0 1 (by norm_num)
      (by norm_num [twoBalls]) (by norm_num [twoBalls])).1
    (by rw [twoBalls_distSq]; norm_num)
    (by rw [twoBalls_distSq, Real.sqrt_one]; norm_num [MIN_DIST])
  exact h.1

/-- Witness for C10 at the concrete state `twoBalls`. -/
theorem pair_interactions_preserve_momentum_witness :
    ((getP (pairStep1 1 0 1 twoBalls) 0).velocity.add
        (getP (pairStep1 1 0 1 twoBalls) 1).velocity
      = (getP twoBalls 0).velocity.add (getP twoBalls 1).velocity)
    ∧ ((getP (pairStep2 1 0 1 twoBalls) 0).velocity.add
        (getP (pairStep2 1 0 1 twoBalls) 1).velocity
      = (getP twoBalls 0).velocity.add (getP twoBalls 1).velocity)
    ∧ ((getP (pairStep4 0.00015 1 0 1 twoBalls) 0).velocity.add
        (getP (pairStep4 0.00015 1 0 1 twoBalls) 1).velocity
      = (getP twoBalls 0).velocity.add (getP twoBalls 1).velocity) :=
  pair_interactions_preserve_momentum 1 0.00015 twoBalls 0 1 (by norm_num)
    (by norm_num [twoBalls]) (by norm_num [twoBalls])

/-- Witness for C8: a one-frame run is reproducible. -/
theorem step_deterministic_witness :
    runSteps 1 2 twoBalls [⟨0, 20, 0⟩] = runSteps 1 2 twoBalls [⟨0, 20, 0⟩] :=
  step_deterministic 1 2 twoBalls twoBalls [⟨0, 20, 0⟩] [⟨0, 20, 0⟩] rfl rfl

/-! ### Claim C9: updateInstances only advances rotations -/

@[simp] theorem rotAdv_position (p : Particle) : (rotAdv p).position = p.position := rfl

@[simp] theorem rotAdv_velocity (p : Particle) : (rotAdv p).velocity = p.velocity := rfl

@[simp] theorem rotAdv_rotVel (p : Particle) : (rotAdv p).rotVel = p.rotVel := rfl

theorem rotAdv_default : rotAdv default = default := by
  show rotAdv ⟨⟨0, 0, 0⟩, ⟨0, 0, 0⟩, ⟨0, 0, 0⟩, ⟨0, 0, 0⟩⟩ =
    (⟨⟨0, 0, 0⟩, ⟨0, 0, 0⟩, ⟨0, 0, 0⟩, ⟨0, 0, 0⟩⟩ : Particle)
  simp [rotAdv, Vec3.add]

theorem getP_updateInstances (s : State) (i : ℕ) :
    getP (updateInstances s) i = rotAdv (getP s i) := by
  rw [getP, updateInstances, show (default : Particle) = rotAdv default from rotAdv_default.symm,
    List.getD_map]
  rfl

theorem length_updateInstances (s : State) : (updateInstances s).length = s.length := by
  simp [updateInstances]

theorem pairStep1_updateInstances (R : ℝ) (i j : ℕ) (s : State) :
    pairStep1 R i j (updateInstances s) = updateInstances (pairStep1 R i j s) := by
  simp only [pairStep1, getP_updateInstances, rotAdv_position, rotAdv_velocity]
  split_ifs <;>
    simp only [setPair, updateInstances, List.map_set] <;> rfl

theorem pairStep2_updateInstances (R : ℝ) (i j : ℕ) (s : State) :
    pairStep2 R i j (updateInstances s) = updateInstances (pairStep2 R i j s) := by
  simp only [pairStep2, getP_updateInstances, rotAdv_position, rotAdv_velocity]
  split_ifs <;>
    simp only [setPair, updateInstances, List.map_set] <;> rfl

theorem pairStep4_updateInstances (f R : ℝ) (i j : ℕ) (s : State) :
    pairStep4 f R i j (updateInstances s) = updateInstances (pairStep4 f R i j s) := by
  simp only [pairStep4, getP_updateInstances, rotAdv_position, rotAdv_velocity]
  split_ifs <;>
    simp only [setPair, updateInstances, List.map_set] <;> rfl

theorem boundaryStep_updateInstances (R : ℝ) (i : ℕ) (s : State) :
    boundaryStep R i (updateInstances s) = updateInstances (boundaryStep R i s) := by
  simp only [boundaryStep, getP_updateInstances, rotAdv_position, rotAdv_velocity]
  split_ifs <;>
    simp only [updateInstances, List.map_set] <;> rfl

theorem cameraStep_updateInstances (cam : Vec3) (i : ℕ) (s : State) :
    cameraStep cam i (updateInstances s) = updateInstances (cameraStep cam i s) := by
  simp only [cameraStep, getP_updateInstances, rotAdv_position, rotAdv_velocity]
  split_ifs <;>
    simp only [updateInstances, List.map_set] <;> rfl

theorem integrateP_rotAdv (p : Particle) : integrateP (rotAdv p) = rotAdv (integrateP p) := by
  simp only [integrateP, rotAdv_position, rotAdv_velocity]
  split_ifs <;> rfl

theorem integrateBody_updateInstances (s : State) (i : ℕ) :
    integrateBody (updateInstances s) i = updateInstances (integrateBody s i) := by
  unfold integrateBody
  rw [getP_updateInstances, integrateP_rotAdv]
  simp only [updateInstances, List.map_set]

/-- Generic commutation of a fold with `updateInstances`. -/
theorem foldl_updateInstances {α : Type} (f : State → α → State) (l : List α)
    (h : ∀ t a, f (updateInstances t) a = updateInstances (f t a)) (s : State) :
    l.foldl f (updateInstances s) = updateInstances (l.foldl f s) := by
  induction l generalizing s with
  | nil => rfl
  | cons a l ih => simp only [List.foldl_cons]; rw [h, ih]

theorem pass1Body_updateInstances (R : ℝ) (cam : Vec3) (count sub : ℕ)
    (t : State) (k : ℝ) (i : ℕ) :
    pass1Body R cam count sub (updateInstances t, k) i =
      ((updateInstances (pass1Body R cam count sub (t, k) i).1),
       (pass1Body R cam count sub (t, k) i).2) := by
  simp only [pass1Body, getP_updateInstances, rotAdv_velocity]
  rw [foldl_updateInstances _ _ (fun u j => pairStep1_updateInstances R i j u),
    boundaryStep_updateInstances, cameraStep_updateInstances]

theorem pass1_updateInstances (R : ℝ) (cam : Vec3) (count sub : ℕ) (s : State) :
    pass1 R cam count sub (updateInstances s) =
      (updateInstances (pass1 R cam count sub s).1, (pass1 R cam count sub s).2) := by
  unfold pass1
  have key : ∀ (l : List ℕ) (t : State) (k : ℝ),
      l.foldl (pass1Body R cam count sub) (updateInstances t, k) =
        ((updateInstances (l.foldl (pass1Body R cam count sub) (t, k)).1),
         (l.foldl (pass1Body R cam count sub) (t, k)).2) := by
    intro l
    induction l with
    | nil => intro t k; rfl
    | cons a l ih =>
        intro t k
        rw [List.foldl_cons, pass1Body_updateInstances,
          ih (pass1Body R cam count sub (t, k) a).1 (pass1Body R cam count sub (t, k) a).2]
        simp only [Prod.mk.eta, List.foldl_cons]
  exact key _ _ _

theorem pass2Iter_updateInstances (R : ℝ) (cam : Vec3) (count : ℕ) (s : State) :
    pass2Iter R cam count (updateInstances s) = updateInstances (pass2Iter R cam count s) := by
  refine foldl_updateInstances _ _ (fun t i => ?_) s
  simp only [pass2Body]
  rw [foldl_updateInstances _ _ (fun u j => pairStep2_updateInstances R i j u),
    boundaryStep_updateInstances, cameraStep_updateInstances]

theorem pass2_updateInstances (R : ℝ) (cam : Vec3) (count : ℕ) (s : State) :
    pass2 R cam count (updateInstances s) = updateInstances (pass2 R cam count s) :=
  foldl_updateInstances _ _ (fun t _ => pass2Iter_updateInstances R cam count t) s

theorem pass3_updateInstances (count : ℕ) (s : State) :
    pass3 count (updateInstances s) = updateInstances (pass3 count s) :=
  foldl_updateInstances _ _ (fun t i => integrateBody_updateInstances t i) s

theorem pass4_updateInstances (f R : ℝ) (count : ℕ) (s : State) :
    pass4 f R count (updateInstances s) = updateInstances (pass4 f R count s) :=
  foldl_updateInstances _ _
    (fun t i => foldl_updateInstances _ _ (fun u j => pairStep4_updateInstances f R i j u) t) s

theorem subStep_updateInstances (R : ℝ) (cam : Vec3) (count : ℕ) (s : State) (sub : ℕ) :
    subStep R cam count (updateInstances s) sub = updateInstances (subStep R cam count s sub) := by
  simp only [subStep, pass1_updateInstances, pass2_updateInstances, pass3_updateInstances]
  split_ifs <;> first | rfl | rw [pass4_updateInstances]

theorem step_updateInstances (R : ℝ) (cam : Vec3) (count : ℕ) (s : State) :
    step R cam count (updateInstances s) = updateInstances (step R cam count s) :=
  foldl_updateInstances _ _ (fun t sub => subStep_updateInstances R cam count t sub) s

/-- The physically observable part of the state: positions and velocities. -/
def physView (s : State) : List (Vec3 × Vec3) := s.map (fun p => (p.position, p.velocity))

theorem physView_updateInstances (s : State) : physView (updateInstances s) = physView s := by
  simp only [physView, updateInstances, List.map_map]
  rfl

/-- C9.  Each call to writeTransforms (updateInstances) advances every
body's orientation by exactly its spin, leaves position, velocity and spin
unchanged, and — for any number `k` of consecutive updateInstances calls —
the positions and velocities computed by the next `step` are unaffected. -/
theorem updateInstances_rotation_only (R : ℝ) (cam : Vec3) (s : State) (i k : ℕ)
    (hi : i < s.length) :
    (getP (updateInstances s) i).rotation = (getP s i).rotation.add (getP s i).rotVel
    ∧ (getP (updateInstances s) i).position = (getP s i).position
    ∧ (getP (updateInstances s) i).velocity = (getP s i).velocity
    ∧ (getP (updateInstances s) i).rotVel = (getP s i).rotVel
    ∧ physView (step R cam s.length (updateInstances^[k] s)) =
        physView (step R cam s.length s) := by
  refine ⟨by rw [getP_updateInstances]; rfl, by rw [getP_updateInstances]; rfl,
    by rw [getP_updateInstances]; rfl, by rw [getP_updateInstances]; rfl, ?_⟩
  induction k with
  | zero => rfl
  | succ k ih =>
      rw [Function.iterate_succ_apply', step_updateInstances, physView_updateInstances, ih]

/-- Witness for C9 at the concrete state `twoBalls`. -/
theorem updateInstances_rotation_only_witness :
    (getP (updateInstances twoBalls) 0).rotation =
        (getP twoBalls 0).rotation.add (getP twoBalls 0).rotVel
    ∧ (getP (updateInstances twoBalls) 0).position = (getP twoBalls 0).position
    ∧ (getP (updateInstances twoBalls) 0).velocity = (getP twoBalls 0).velocity
    ∧ (getP (updateInstances twoBalls) 0).rotVel = (getP twoBalls 0).rotVel
    ∧ physView (step 1 ⟨0, 20, 0⟩ twoBalls.length (updateInstances^[3] twoBalls)) =
        physView (step 1 ⟨0, 20, 0⟩ twoBalls.length twoBalls) :=
  updateInstances_rotation_only 1 ⟨0, 20, 0⟩ twoBalls 0 3 (by norm_num [twoBalls])

/-! ### Further vector facts for the containment invariants -/

namespace Vec3

theorem lengthSq_smul (a : Vec3) (t : ℝ) : (a.smul t).lengthSq = t * t * a.lengthSq := by
  simp only [smul, lengthSq]; ring

theorem lengthSq_setLength (a : Vec3) (l : ℝ) (ha : a.lengthSq ≠ 0) :
    (a.setLength l).lengthSq = l * l := by
  have hlen2 : a.length * a.length = a.lengthSq := a.length_mul_self
  have hlen : a.length ≠ 0 := fun h => ha (by rw [← hlen2, h, mul_zero])
  rw [setLength, lengthSq_smul, ← hlen2]
  field_simp

theorem length_le_of_lengthSq_le {a : Vec3} {c : ℝ} (hc : 0 ≤ c)
    (h : a.lengthSq ≤ c * c) : a.length ≤ c := by
  calc a.length ≤ Real.sqrt (c * c) := Real.sqrt_le_sqrt h
    _ = c := Real.sqrt_mul_self hc

theorem le_length_of_sq_le {a : Vec3} {c : ℝ} (hc : 0 ≤ c)
    (h : c * c ≤ a.lengthSq) : c ≤ a.length := by
  calc c = Real.sqrt (c * c) := (Real.sqrt_mul_self hc).symm
    _ ≤ a.length := Real.sqrt_le_sqrt h

theorem eq_of_lengthSq_sub_eq_zero {a b : Vec3} (h : (a.sub b).lengthSq = 0) : a = b := by
  simp only [sub, lengthSq] at h
  have hx : a.x - b.x = 0 := by
    nlinarith [mul_self_nonneg (a.x - b.x), mul_self_nonneg (a.y - b.y),
      mul_self_nonneg (a.z - b.z)]
  have hy : a.y - b.y = 0 := by
    nlinarith [mul_self_nonneg (a.x - b.x), mul_self_nonneg (a.y - b.y),
      mul_self_nonneg (a.z - b.z)]
  have hz : a.z - b.z = 0 := by
    nlinarith [mul_self_nonneg (a.x - b.x), mul_self_nonneg (a.y - b.y),
      mul_self_nonneg (a.z - b.z)]
  ext <;> linarith

theorem addScaled_zero_vec (a : Vec3) (t : ℝ) : a.addScaled ⟨0, 0, 0⟩ t = a := by
  simp only [addScaled, add, smul]; ext <;> ring

theorem sub_add_cancel_vec (a b c : Vec3) : ((a.add b).sub c).add (b.smul (-1)) = a.sub c := by
  simp only [add, sub, smul]; ext <;> ring

theorem add_sub_assoc_vec (a b c : Vec3) : (a.add b).sub c = (a.sub c).add b := by
  simp only [add, sub]; ext <;> ring

end Vec3

theorem sqrt_distSq (a b : Vec3) :
    Real.sqrt (Vec3.distanceToSquared a b) = (a.sub b).length := rfl

/-- The camera push places the body exactly on the safe sphere: the
displaced position minus the camera is the old offset rescaled to length
`CAMERA_SAFE_RADIUS`. -/
theorem camera_push_offset (pos cam : Vec3) (hne : (pos.sub cam).lengthSq ≠ 0) :
    (pos.addScaled ((pos.sub cam).smul (1 / (pos.sub cam).length))
        (CAMERA_SAFE_RADIUS - (pos.sub cam).length)).sub cam
      = (pos.sub cam).smul (CAMERA_SAFE_RADIUS / (pos.sub cam).length) := by
  have hlen2 : (pos.sub cam).length * (pos.sub cam).length = (pos.sub cam).lengthSq :=
    (pos.sub cam).length_mul_self
  have hlen : (pos.sub cam).length ≠ 0 := fun h => hne (by rw [← hlen2, h, mul_zero])
  generalize hL : (pos.sub cam).length = L at hlen ⊢
  simp only [Vec3.addScaled, Vec3.add, Vec3.sub, Vec3.smul]
  ext <;> (field_simp; ring)

theorem length_smul_div_self (v : Vec3) (c : ℝ) (hc : 0 ≤ c) (hv : v.lengthSq ≠ 0) :
    (v.smul (c / v.length)).length = c := by
  have hlen2 : v.length * v.length = v.lengthSq := v.length_mul_self
  have hlen : v.length ≠ 0 := fun h => hv (by rw [← hlen2, h, mul_zero])
  rw [Vec3.length_smul, abs_of_nonneg (div_nonneg hc v.length_nonneg),
    div_mul_cancel₀ _ hlen]

/-! ### Claim C3 (amended): the exact speed bound at the end of Pass 3 -/

theorem maxSpeed_pos : (0 : ℝ) < maxSpeed := by norm_num [maxSpeed, SUB_STEPS]

/-- The damp-then-clamp of Pass 3 leaves the squared speed at most
`maxSpeed²`, and the clamp branch is exact. -/
theorem integrateP_speedSq (p : Particle) :
    (integrateP p).velocity.lengthSq ≤ maxSpeed * maxSpeed := by
  simp only [integrateP]
  split_ifs with h
  · have hne : (p.velocity.smul dampingFactor).lengthSq ≠ 0 :=
      ne_of_gt (lt_of_le_of_lt (mul_self_nonneg maxSpeed) h)
    rw [Vec3.lengthSq_setLength _ _ hne]
  · exact le_of_not_lt h

theorem integrateP_speed (p : Particle) : (integrateP p).velocity.length ≤ maxSpeed :=
  Vec3.length_le_of_lengthSq_le (le_of_lt maxSpeed_pos) (integrateP_speedSq p)

theorem getP_pass3_ge (count : ℕ) (s : State) (i : ℕ) (hi : count ≤ i) :
    getP (pass3 count s) i = getP s i := by
  unfold pass3
  refine getP_foldl_untouched _ _ _ _ (fun t k hk => ?_)
  have : k < count := List.mem_range.1 hk
  exact getP_integrateBody_other _ _ _ (by omega)

theorem getP_pass3 (count : ℕ) (s : State) (hc : count ≤ s.length) (i : ℕ)
    (hi : i < count) : getP (pass3 count s) i = integrateP (getP s i) := by
  induction count with
  | zero => omega
  | succ n ih =>
      have hpass : pass3 (n + 1) s = integrateBody (pass3 n s) n := by
        unfold pass3
        rw [List.range_succ, List.foldl_append, List.foldl_cons, List.foldl_nil]
      have hlen : (pass3 n s).length = s.length := length_pass3 n s
      rcases Nat.lt_or_ge i n with h | h
      · rw [hpass, getP_integrateBody_other _ _ _ (by omega)]
        exact ih (by omega) h
      · have hin : i = n := by omega
        subst hin
        rw [hpass, integrateBody, getP_set_self _ _ _ (by omega),
          getP_pass3_ge i s i (le_refl _)]

/-- C3 (amended).  For every body, at the end of Pass 3 of a sub-step —
after damping and the direction-preserving clamp, i.e. just before the
final sub-step's Pass 4 — the speed is at most `maxSpeed` exactly.
(The original claim, that this still holds after `step()` returns, fails
because Pass 4's idle-diffusion pushes are added after the clamp.) -/
theorem speed_bound_after_integration (s : State) (i : ℕ) (hi : i < s.length) :
    (getP (pass3 s.length s) i).velocity.length ≤ maxSpeed := by
  rw [getP_pass3 s.length s (le_refl _) i hi]
  exact integrateP_speed _

/-- Witness for the amended C3 at the concrete state `twoBalls`. -/
theorem speed_bound_after_integration_witness :
    (getP (pass3 twoBalls.length twoBalls) 0).velocity.length ≤ maxSpeed :=
  speed_bound_after_integration twoBalls 0 (by norm_num [twoBalls])

/-! ### Claims C4 and C5 (amended): containment and camera exclusion -/

/-- The displaced position produced by the camera forcefield sits exactly on
the safe sphere around the viewer — or, when the body coincides with the
viewer (zero-length guard), it is left at the viewer position. -/
theorem camera_pos_bounds (cam pos : Vec3) :
    ((pos.addScaled ((pos.sub cam).normalize)
        (CAMERA_SAFE_RADIUS - Real.sqrt (Vec3.distanceToSquared pos cam))).sub cam).length
      ≤ CAMERA_SAFE_RADIUS
    ∧ (CAMERA_SAFE_RADIUS ≤ ((pos.addScaled ((pos.sub cam).normalize)
          (CAMERA_SAFE_RADIUS - Real.sqrt (Vec3.distanceToSquared pos cam))).sub cam).length
       ∨ (pos.addScaled ((pos.sub cam).normalize)
          (CAMERA_SAFE_RADIUS - Real.sqrt (Vec3.distanceToSquared pos cam))) = cam) := by
  by_cases hne : (pos.sub cam).lengthSq = 0
  · have hpc : pos = cam := Vec3.eq_of_lengthSq_sub_eq_zero hne
    have hz : pos.sub cam = ⟨0, 0, 0⟩ := by
      rw [hpc]; simp only [Vec3.sub]; ext <;> ring
    have hnz : (pos.sub cam).normalize = ⟨0, 0, 0⟩ := by
      rw [hz]; simp only [Vec3.normalize, Vec3.smul]; ext <;> ring
    have hnew : pos.addScaled ((pos.sub cam).normalize)
        (CAMERA_SAFE_RADIUS - Real.sqrt (Vec3.distanceToSquared pos cam)) = cam := by
      rw [hnz, Vec3.addScaled_zero_vec, hpc]
    rw [hnew]
    constructor
    · have hcc : cam.sub cam = ⟨0, 0, 0⟩ := by simp only [Vec3.sub]; ext <;> ring
      rw [hcc]
      have h0 : (⟨0, 0, 0⟩ : Vec3).length = 0 := by
        simp [Vec3.length, Vec3.lengthSq]
      rw [h0]; norm_num [CAMERA_SAFE_RADIUS]
    · exact Or.inr rfl
  · have heq : ((pos.addScaled ((pos.sub cam).normalize)
        (CAMERA_SAFE_RADIUS - Real.sqrt (Vec3.distanceToSquared pos cam))).sub cam).length
          = CAMERA_SAFE_RADIUS := by
      rw [sqrt_distSq,
        show (pos.sub cam).normalize = (pos.sub cam).smul (1 / (pos.sub cam).length) from rfl,
        camera_push_offset pos cam hne,
        length_smul_div_self _ _ (by norm_num [CAMERA_SAFE_RADIUS]) hne]
    rw [heq]
    exact ⟨le_refl _, Or.inl (le_refl _)⟩

/-- After the camera block, a body is at distance at least the safe radius
from the viewer, or coincides with the viewer. -/
theorem cameraStep_exclusion (cam : Vec3) (i : ℕ) (u : State) (hi : i < u.length) :
    CAMERA_SAFE_RADIUS ≤ ((getP (cameraStep cam i u) i).position.sub cam).length
    ∨ (getP (cameraStep cam i u) i).position = cam := by
  simp only [cameraStep]
  split_ifs with h hd
  · rw [getP_set_self _ _ _ hi]
    exact (camera_pos_bounds cam (getP u i).position).2
  · rw [getP_set_self _ _ _ hi]
    exact (camera_pos_bounds cam (getP u i).position).2
  · exact Or.inl (Vec3.le_length_of_sq_le (by norm_num [CAMERA_SAFE_RADIUS]) (le_of_not_lt h))

/-- After the camera block, a body within the containment edge stays there
unless the forcefield moved it, in which case it is within the safe radius
of the viewer. -/
theorem cameraStep_contains (R : ℝ) (cam : Vec3) (i : ℕ) (u : State) (hi : i < u.length)
    (hin : (getP u i).position.length ≤ edgeDist R) :
    (getP (cameraStep cam i u) i).position.length ≤ edgeDist R
    ∨ ((getP (cameraStep cam i u) i).position.sub cam).length ≤ CAMERA_SAFE_RADIUS := by
  simp only [cameraStep]
  split_ifs with h hd
  · rw [getP_set_self _ _ _ hi]
    exact Or.inr (camera_pos_bounds cam (getP u i).position).1
  · rw [getP_set_self _ _ _ hi]
    exact Or.inr (camera_pos_bounds cam (getP u i).position).1
  · exact Or.inl hin

/-- After the boundary block, the body is inside the containment edge. -/
theorem boundaryStep_contains (R : ℝ) (i : ℕ) (u : State) (hi : i < u.length)
    (hedge : 0 ≤ edgeDist R) :
    (getP (boundaryStep R i u) i).position.length ≤ edgeDist R := by
  simp only [boundaryStep]
  split_ifs with h hd
  · rw [getP_set_self _ _ _ hi]
    exact le_of_eq (Vec3.length_setLength _ _ hedge
      (Ne.symm (ne_of_lt (lt_of_le_of_lt (mul_self_nonneg (edgeDist R)) h))))
  · rw [getP_set_self _ _ _ hi]
    exact le_of_eq (Vec3.length_setLength _ _ hedge
      (Ne.symm (ne_of_lt (lt_of_le_of_lt (mul_self_nonneg (edgeDist R)) h))))
  · exact Vec3.length_le_of_lengthSq_le hedge (le_of_not_lt h)

theorem length_pass2Body (R : ℝ) (cam : Vec3) (count : ℕ) (t : State) (i : ℕ) :
    (pass2Body R cam count t i).length = t.length := by
  simp only [pass2Body, length_cameraStep, length_boundaryStep]
  exact length_foldl _ _ _ (fun u j => length_pairStep2 R i j u)

/-- The two per-body invariants established by a Pass 2 body block. -/
theorem pass2Body_invariants (R : ℝ) (cam : Vec3) (count : ℕ) (t : State) (i : ℕ)
    (hi : i < t.length) :
    (CAMERA_SAFE_RADIUS ≤ ((getP (pass2Body R cam count t i) i).position.sub cam).length
      ∨ (getP (pass2Body R cam count t i) i).position = cam)
    ∧ (0 ≤ edgeDist R →
        (getP (pass2Body R cam count t i) i).position.length ≤ edgeDist R
        ∨ ((getP (pass2Body R cam count t i) i).position.sub cam).length ≤ CAMERA_SAFE_RADIUS) := by
  have hlen1 : ((innerIdx count i).foldl (fun u j => pairStep2 R i j u) t).length = t.length :=
    length_foldl _ _ _ (fun u j => length_pairStep2 R i j u)
  have hlen2 : (boundaryStep R i ((innerIdx count i).foldl (fun u j => pairStep2 R i j u) t)).length
      = t.length := by rw [length_boundaryStep, hlen1]
  constructor
  · exact cameraStep_exclusion cam i _ (by omega)
  · intro hedge
    exact cameraStep_contains R cam i _ (by omega)
      (boundaryStep_contains R i _ (by omega) hedge)

/-- After one full Pass 2 iteration the invariants hold for every body. -/
theorem pass2Iter_invariants (R : ℝ) (cam : Vec3) (L : ℕ) (u : State) (hu : u.length = L) :
    ∀ m < L,
      (CAMERA_SAFE_RADIUS ≤ ((getP (pass2Iter R cam L u) m).position.sub cam).length
        ∨ (getP (pass2Iter R cam L u) m).position = cam)
      ∧ (0 ≤ edgeDist R →
          (getP (pass2Iter R cam L u) m).position.length ≤ edgeDist R
          ∨ ((getP (pass2Iter R cam L u) m).position.sub cam).length ≤ CAMERA_SAFE_RADIUS) := by
  intro m hm
  exact foldl_range_establishes (pass2Body R cam L)
    (fun p => (CAMERA_SAFE_RADIUS ≤ ((p.position).sub cam).length ∨ p.position = cam)
      ∧ (0 ≤ edgeDist R → p.position.length ≤ edgeDist R
          ∨ ((p.position).sub cam).length ≤ CAMERA_SAFE_RADIUS))
    (fun t => t.length = L) L
    (fun t i ht => by
      show (pass2Body R cam L t i).length = L
      rw [length_pass2Body]
      exact ht)
    (fun t i m' hm' => getP_pass2Body_lt R cam L t i m' hm')
    (fun t i ht hiL => pass2Body_invariants R cam L t i (by omega))
    L (le_refl L) u hu m hm

/-- Pass 2 ends with a full iteration, so its output satisfies the
invariants for every body. -/
theorem pass2_eq_last (R : ℝ) (cam : Vec3) (count : ℕ) (s : State) :
    pass2 R cam count s = pass2Iter R cam count
      ((List.range (SOLVER_ITERATIONS - 2)).foldl (fun t _ => pass2Iter R cam count t) s) := by
  show (List.range (SOLVER_ITERATIONS - 1)).foldl _ s = _
  rw [show SOLVER_ITERATIONS - 1 = (SOLVER_ITERATIONS - 2) + 1 from rfl, List.range_succ,
    List.foldl_append, List.foldl_cons, List.foldl_nil]

theorem pass2_invariants (R : ℝ) (cam : Vec3) (L : ℕ) (u : State) (hu : u.length = L) :
    ∀ m < L,
      (CAMERA_SAFE_RADIUS ≤ ((getP (pass2 R cam L u) m).position.sub cam).length
        ∨ (getP (pass2 R cam L u) m).position = cam)
      ∧ (0 ≤ edgeDist R →
          (getP (pass2 R cam L u) m).position.length ≤ edgeDist R
          ∨ ((getP (pass2 R cam L u) m).position.sub cam).length ≤ CAMERA_SAFE_RADIUS) := by
  rw [pass2_eq_last]
  exact pass2Iter_invariants R cam L _
    (by
      rw [length_foldl _ _ _ (fun t _ => length_pass2Iter R cam L t)]
      exact hu)

theorem integrateP_position (p : Particle) :
    (integrateP p).position = p.position.add (integrateP p).velocity := rfl

/-- Moving a body by at most `maxSpeed` weakens the exclusion invariant by
`maxSpeed`. -/
theorem excl_after_move (cam : Vec3) (p v : Vec3) (hv : v.length ≤ maxSpeed)
    (h : CAMERA_SAFE_RADIUS ≤ (p.sub cam).length ∨ p = cam) :
    CAMERA_SAFE_RADIUS - maxSpeed ≤ ((p.add v).sub cam).length
    ∨ ((p.add v).sub cam).length ≤ maxSpeed := by
  rcases h with h | h
  · left
    have hdecomp : ((p.add v).sub cam).add (v.smul (-1)) = p.sub cam :=
      Vec3.sub_add_cancel_vec p v cam
    have htri := Vec3.length_add_le ((p.add v).sub cam) (v.smul (-1))
    rw [hdecomp] at htri
    have hsm : (v.smul (-1)).length = v.length := by
      rw [Vec3.length_smul]; norm_num
    rw [hsm] at htri
    linarith
  · right
    have : (p.add v).sub cam = v := by
      rw [h]; simp only [Vec3.add, Vec3.sub]; ext <;> ring
    rw [this]
    exact hv

/-- Moving a body by at most `maxSpeed` weakens the containment invariant by
`maxSpeed`. -/
theorem cont_after_move (R : ℝ) (cam : Vec3) (p v : Vec3) (hv : v.length ≤ maxSpeed)
    (h : p.length ≤ edgeDist R ∨ (p.sub cam).length ≤ CAMERA_SAFE_RADIUS) :
    (p.add v).length ≤ edgeDist R + maxSpeed
    ∨ ((p.add v).sub cam).length ≤ CAMERA_SAFE_RADIUS + maxSpeed := by
  rcases h with h | h
  · left
    have := Vec3.length_add_le p v
    linarith
  · right
    rw [Vec3.add_sub_assoc_vec]
    have := Vec3.length_add_le (p.sub cam) v
    linarith

/-- `setPair` with records that keep the position fields leaves every
body's position unchanged. -/
theorem getP_position_setPair (s : State) (i j : ℕ) (a b : Particle)
    (hij : i ≠ j) (ha : a.position = (getP s i).position)
    (hb : b.position = (getP s j).position) (m : ℕ) :
    (getP (setPair s i j a b) m).position = (getP s m).position := by
  by_cases hmj : m = j
  · subst hmj
    by_cases hj : m < s.length
    · rw [getP_setPair_right _ _ _ _ _ hj, hb]
    · rw [setPair, List.set_eq_of_length_le (by simpa using le_of_not_lt hj),
        getP_set_ne _ _ _ _ (Ne.symm hij)]
  · by_cases hmi : m = i
    · subst hmi
      rw [setPair, getP_set_ne _ _ _ _ hmj]
      by_cases hi : m < s.length
      · rw [getP_set_self _ _ _ hi, ha]
      · rw [List.set_eq_of_length_le (le_of_not_lt hi)]
    · rw [getP_setPair_other _ _ _ _ _ _ hmi hmj]

theorem getP_position_pairStep4 (f R : ℝ) (i j : ℕ) (s : State) (hij : i ≠ j) (m : ℕ) :
    (getP (pairStep4 f R i j s) m).position = (getP s m).position := by
  simp only [pairStep4]
  split_ifs with h
  · refine getP_position_setPair s i j _ _ hij ?_ ?_ m <;> rfl
  · rfl

/-- Generic fold lemma: a fold of position-preserving operations preserves
every body's position. -/
theorem getP_position_foldl {α : Type} (f : State → α → State) (l : List α)
    (s : State) (m : ℕ)
    (h : ∀ t a, a ∈ l → (getP (f t a) m).position = (getP t m).position) :
    (getP (l.foldl f s) m).position = (getP s m).position := by
  induction l generalizing s with
  | nil => rfl
  | cons a l ih =>
      rw [List.foldl_cons, ih _ (fun t b hb => h t b (List.mem_cons_of_mem a hb)),
        h s a (List.mem_cons_self a l)]

theorem getP_position_pass4 (f R : ℝ) (count : ℕ) (s : State) (m : ℕ) :
    (getP (pass4 f R count s) m).position = (getP s m).position := by
  unfold pass4
  refine getP_position_foldl _ _ _ _ (fun t i _ => ?_)
  refine getP_position_foldl _ _ _ _ (fun u j hj => ?_)
  exact getP_position_pairStep4 f R i j u (by have := mem_innerIdx hj; omega) m

/-- After one sub-step, every body satisfies the weakened exclusion and
(assuming a sane edge distance) containment invariants: Pass 2 ends having
enforced both, Pass 3 moves each body by at most `maxSpeed`, and Pass 4
never moves positions. -/
theorem subStep_invariants (R : ℝ) (cam : Vec3) (L : ℕ) (s : State) (hs : s.length = L)
    (sub : ℕ) :
    ∀ m < L,
      (CAMERA_SAFE_RADIUS - maxSpeed ≤
          ((getP (subStep R cam L s sub) m).position.sub cam).length
        ∨ ((getP (subStep R cam L s sub) m).position.sub cam).length ≤ maxSpeed)
      ∧ (0 ≤ edgeDist R →
          (getP (subStep R cam L s sub) m).position.length ≤ edgeDist R + maxSpeed
          ∨ ((getP (subStep R cam L s sub) m).position.sub cam).length
              ≤ CAMERA_SAFE_RADIUS + maxSpeed) := by
  intro m hm
  have hlen1 : (pass1 R cam L sub s).1.length = L := by rw [length_pass1, hs]
  have h2 := pass2_invariants R cam L (pass1 R cam L sub s).1 hlen1 m hm
  have hlen2 : (pass2 R cam L (pass1 R cam L sub s).1).length = L := by
    rw [length_pass2, hlen1]
  have h3 : getP (pass3 L (pass2 R cam L (pass1 R cam L sub s).1)) m
      = integrateP (getP (pass2 R cam L (pass1 R cam L sub s).1) m) :=
    getP_pass3 L _ (by omega) m hm
  have hspeed := integrateP_speed (getP (pass2 R cam L (pass1 R cam L sub s).1) m)
  have hposmove := integrateP_position (getP (pass2 R cam L (pass1 R cam L sub s).1) m)
  have hexcl := excl_after_move cam
    (getP (pass2 R cam L (pass1 R cam L sub s).1) m).position
    (integrateP (getP (pass2 R cam L (pass1 R cam L sub s).1) m)).velocity
    hspeed h2.1
  have hcont : 0 ≤ edgeDist R →
      ((getP (pass2 R cam L (pass1 R cam L sub s).1) m).position.add
          (integrateP (getP (pass2 R cam L (pass1 R cam L sub s).1) m)).velocity).length
        ≤ edgeDist R + maxSpeed
      ∨ (((getP (pass2 R cam L (pass1 R cam L sub s).1) m).position.add
          (integrateP (getP (pass2 R cam L (pass1 R cam L sub s).1) m)).velocity).sub
            cam).length ≤ CAMERA_SAFE_RADIUS + maxSpeed := fun hedge =>
    cont_after_move R cam _ _ hspeed (h2.2 hedge)
  have hpos : (getP (subStep R cam L s sub) m).position
      = (getP (pass3 L (pass2 R cam L (pass1 R cam L sub s).1)) m).position := by
    simp only [subStep]
    split_ifs with hif
    · exact getP_position_pass4 _ R L _ m
    · rfl
  rw [hpos, h3, hposmove]
  exact ⟨hexcl, hcont⟩

/-- `step` ends with a sub-step, so its output satisfies the invariants. -/
theorem step_invariants (R : ℝ) (cam : Vec3) (s : State) :
    ∀ m < s.length,
      (CAMERA_SAFE_RADIUS - maxSpeed ≤
          ((getP (step R cam s.length s) m).position.sub cam).length
        ∨ ((getP (step R cam s.length s) m).position.sub cam).length ≤ maxSpeed)
      ∧ (0 ≤ edgeDist R →
          (getP (step R cam s.length s) m).position.length ≤ edgeDist R + maxSpeed
          ∨ ((getP (step R cam s.length s) m).position.sub cam).length
              ≤ CAMERA_SAFE_RADIUS + maxSpeed) := by
  intro m hm
  have hstep : step R cam s.length s
      = subStep R cam s.length (subStep R cam s.length s 0) 1 := rfl
  rw [hstep]
  exact subStep_invariants R cam s.length (subStep R cam s.length s 0)
    (length_subStep R cam s.length s 0) 1 m hm

/-- C4 (amended).  After every completed `step`, each body is within
`edgeDist + maxSpeed` of the origin — unless the viewer forcefield
displaced it, in which case it is within `cameraSafeRadius + maxSpeed` of
the viewer position.  (The original claim's bound `edgeDist + epsilon`
fails: boundary containment is enforced before Pass 3, whose integration
moves a body by up to `maxSpeed`, and the camera push can move bodies
outside the boundary sphere when the viewer sits near it.) -/
theorem boundary_containment_with_forcefield (R : ℝ) (cam : Vec3) (s : State) (i : ℕ)
    (hedge : 0 ≤ edgeDist R) (hi : i < s.length) :
    (getP (step R cam s.length s) i).position.length ≤ edgeDist R + maxSpeed
    ∨ ((getP (step R cam s.length s) i).position.sub cam).length
        ≤ CAMERA_SAFE_RADIUS + maxSpeed :=
  (step_invariants R cam s i hi).2 hedge

/-- C5 (amended).  After every completed `step`, each body is at distance
at least `cameraSafeRadius - maxSpeed` from the viewer — unless it sat
exactly at the viewer position when its camera block ran (the zero-length
normalize guard leaves such a body in place), in which case it ends within
`maxSpeed` of the viewer.  (The original claim's bound
`cameraSafeRadius - epsilon` fails because Pass 3 integration runs after
the camera enforcement and can carry a body up to `maxSpeed` inward.) -/
theorem camera_exclusion_up_to_integration (R : ℝ) (cam : Vec3) (s : State) (i : ℕ)
    (hi : i < s.length) :
    CAMERA_SAFE_RADIUS - maxSpeed ≤
        ((getP (step R cam s.length s) i).position.sub cam).length
    ∨ ((getP (step R cam s.length s) i).position.sub cam).length ≤ maxSpeed :=
  (step_invariants R cam s i hi).1

/-- Witness for the amended C4 at the concrete state `twoBalls`. -/
theorem boundary_containment_with_forcefield_witness :
    (getP (step 1 ⟨0, 20, 0⟩ twoBalls.length twoBalls) 0).position.length
        ≤ edgeDist 1 + maxSpeed
    ∨ ((getP (step 1 ⟨0, 20, 0⟩ twoBalls.length twoBalls) 0).position.sub
        ⟨0, 20, 0⟩).length ≤ CAMERA_SAFE_RADIUS + maxSpeed :=
  boundary_containment_with_forcefield 1 ⟨0, 20, 0⟩ twoBalls 0
    (by norm_num [edgeDist, BOUNDARY_RADIUS]) (by norm_num [twoBalls])

/-- Witness for the amended C5 at the concrete state `twoBalls`. -/
theorem camera_exclusion_up_to_integration_witness :
    CAMERA_SAFE_RADIUS - maxSpeed ≤
        ((getP (step 1 ⟨0, 20, 0⟩ twoBalls.length twoBalls) 0).position.sub
          ⟨0, 20, 0⟩).length
    ∨ ((getP (step 1 ⟨0, 20, 0⟩ twoBalls.length twoBalls) 0).position.sub
        ⟨0, 20, 0⟩).length ≤ maxSpeed :=
  camera_exclusion_up_to_integration 1 ⟨0, 20, 0⟩ twoBalls 0 (by norm_num [twoBalls])

/-! ### Concrete evaluation helpers -/

@[ext] theorem Particle.ext_fields {p q : Particle} (h1 : p.position = q.position)
    (h2 : p.velocity = q.velocity) (h3 : p.rotation = q.rotation)
    (h4 : p.rotVel = q.rotVel) : p = q := by
  cases p; cases q; simp_all

theorem sqrt_eval {a b : ℝ} (hb : 0 ≤ b) (h : a = b * b) : Real.sqrt a = b := by
  rw [h]; exact Real.sqrt_mul_self hb

theorem d99_sq : Real.sqrt 0.99 * Real.sqrt 0.99 = 0.99 :=
  Real.mul_self_sqrt (by norm_num)

theorem d99_lb : 0.99498 < Real.sqrt 0.99 := by
  rw [show (0.99498 : ℝ) = Real.sqrt (0.99498 ^ 2) from (Real.sqrt_sq (by norm_num)).symm]
  apply Real.sqrt_lt_sqrt <;> norm_num

theorem d99_ub : Real.sqrt 0.99 < 0.99499 := by
  rw [show (0.99499 : ℝ) = Real.sqrt (0.99499 ^ 2) from (Real.sqrt_sq (by norm_num)).symm]
  apply Real.sqrt_lt_sqrt <;> norm_num

theorem d99_pos : 0 < Real.sqrt 0.99 := lt_trans (by norm_num) d99_lb

theorem d99_ne : Real.sqrt 0.99 ≠ 0 := ne_of_gt d99_pos

theorem dampingFactor_eq : dampingFactor = Real.sqrt 0.99 := by
  rw [dampingFactor, Real.sqrt_eq_rpow, SUB_STEPS]
  norm_num

/-! ### Claim C4 counterexample: a body can end well past the boundary -/

/-- A single body just inside the containment edge, moving outward fast. -/
def c4p0 : Particle := ⟨⟨38.79, 0, 0⟩, ⟨0.3, 0, 0⟩, ⟨0, 0, 0⟩, ⟨0, 0, 0⟩⟩

def c4s0 : State := [c4p0]

/-- A viewer position far from every body used in the traces. -/
def viewFar : Vec3 := ⟨0, 20, 0⟩

/-- State after the first sub-step: velocity clamped to `maxSpeed`,
position integrated to `38.99`. -/
def c4p1 : Particle := ⟨⟨38.99, 0, 0⟩, ⟨0.2, 0, 0⟩, ⟨0, 0, 0⟩, ⟨0, 0, 0⟩⟩

def c4s1 : State := [c4p1]

/-- Final state: damped velocity (no clamp), position past the edge. -/
def c4p2 : Particle :=
  ⟨⟨38.99 + 0.2 * Real.sqrt 0.99, 0, 0⟩, ⟨0.2 * Real.sqrt 0.99, 0, 0⟩, ⟨0, 0, 0⟩, ⟨0, 0, 0⟩⟩

def c4s2 : State := [c4p2]

theorem c4_boundary0 : boundaryStep 1 0 c4s0 = c4s0 := by
  unfold boundaryStep
  rw [show getP c4s0 0 = c4p0 from rfl,
    if_neg (by simp only [c4p0, Vec3.lengthSq, edgeDist, BOUNDARY_RADIUS]; norm_num)]

theorem c4_camera0 : cameraStep viewFar 0 c4s0 = c4s0 := by
  unfold cameraStep
  rw [show getP c4s0 0 = c4p0 from rfl,
    if_neg (by
      simp only [c4p0, viewFar, Vec3.distanceToSquared, Vec3.sub, Vec3.lengthSq,
        cameraSafeRadiusSq, CAMERA_SAFE_RADIUS]
      norm_num)]

theorem c4_pass1 : pass1 1 viewFar 1 0 c4s0 = (c4s0, 0.09) := by
  show (List.range 1).foldl (pass1Body 1 viewFar 1 0) (c4s0, 0) = (c4s0, 0.09)
  rw [show List.range 1 = [0] from rfl]
  simp only [List.foldl_cons, List.foldl_nil, pass1Body]
  rw [show innerIdx 1 0 = [] from rfl]
  simp only [List.foldl_nil]
  rw [c4_boundary0, c4_camera0]
  norm_num [show getP c4s0 0 = c4p0 from rfl, c4p0, Vec3.lengthSq]

theorem c4_pass2Iter : pass2Iter 1 viewFar 1 c4s0 = c4s0 := by
  show (List.range 1).foldl (pass2Body 1 viewFar 1) c4s0 = c4s0
  rw [show List.range 1 = [0] from rfl]
  simp only [List.foldl_cons, List.foldl_nil, pass2Body]
  rw [show innerIdx 1 0 = [] from rfl]
  simp only [List.foldl_nil]
  rw [c4_boundary0, c4_camera0]

theorem c4_pass2 : pass2 1 viewFar 1 c4s0 = c4s0 := by
  unfold pass2
  rw [show List.range (SOLVER_ITERATIONS - 1) = [0, 1, 2, 3, 4] from rfl]
  simp only [List.foldl_cons, List.foldl_nil]
  rw [c4_pass2Iter, c4_pass2Iter, c4_pass2Iter, c4_pass2Iter, c4_pass2Iter]

theorem c4_integrate0 : integrateP c4p0 = c4p1 := by
  simp only [integrateP]
  have hlen : ((c4p0.velocity).smul dampingFactor).length = 0.3 * Real.sqrt 0.99 := by
    apply sqrt_eval (by positivity)
    simp only [c4p0, Vec3.smul, Vec3.lengthSq, dampingFactor_eq]
    ring
  have hv2 : ((c4p0.velocity).smul dampingFactor).setLength maxSpeed = ⟨0.2, 0, 0⟩ := by
    rw [Vec3.setLength, hlen]
    ext <;>
      simp only [c4p0, Vec3.smul, maxSpeed, SUB_STEPS, dampingFactor_eq] <;>
      push_cast <;>
      field_simp <;>
      ring
  rw [if_pos (by
    simp only [c4p0, Vec3.smul, Vec3.lengthSq, maxSpeed, SUB_STEPS, dampingFactor_eq]
    push_cast
    nlinarith [d99_sq]), hv2]
  ext <;> simp only [c4p0, c4p1, Vec3.add] <;> norm_num

theorem c4_pass3 : pass3 1 c4s0 = c4s1 := by
  unfold pass3
  rw [show List.range 1 = [0] from rfl]
  simp only [List.foldl_cons, List.foldl_nil, integrateBody]
  rw [show getP c4s0 0 = c4p0 from rfl, c4_integrate0]
  rfl

theorem c4_sub0 : subStep 1 viewFar 1 c4s0 0 = c4s1 := by
  unfold subStep
  rw [c4_pass1]
  simp only
  rw [if_neg (by norm_num [SUB_STEPS, ENERGY_THRESHOLD]), c4_pass2, c4_pass3]

theorem c4_boundary1 : boundaryStep 1 0 c4s1 = c4s1 := by
  unfold boundaryStep
  rw [show getP c4s1 0 = c4p1 from rfl,
    if_neg (by simp only [c4p1, Vec3.lengthSq, edgeDist, BOUNDARY_RADIUS]; norm_num)]

theorem c4_camera1 : cameraStep viewFar 0 c4s1 = c4s1 := by
  unfold cameraStep
  rw [show getP c4s1 0 = c4p1 from rfl,
    if_neg (by
      simp only [c4p1, viewFar, Vec3.distanceToSquared, Vec3.sub, Vec3.lengthSq,
        cameraSafeRadiusSq, CAMERA_SAFE_RADIUS]
      norm_num)]

theorem c4_pass1' : pass1 1 viewFar 1 1 c4s1 = (c4s1, 0) := by
  show (List.range 1).foldl (pass1Body 1 viewFar 1 1) (c4s1, 0) = (c4s1, 0)
  rw [show List.range 1 = [0] from rfl]
  simp only [List.foldl_cons, List.foldl_nil, pass1Body]
  rw [show innerIdx 1 0 = [] from rfl]
  simp only [List.foldl_nil]
  rw [c4_boundary1, c4_camera1]
  norm_num

theorem c4_pass2Iter' : pass2Iter 1 viewFar 1 c4s1 = c4s1 := by
  show (List.range 1).foldl (pass2Body 1 viewFar 1) c4s1 = c4s1
  rw [show List.range 1 = [0] from rfl]
  simp only [List.foldl_cons, List.foldl_nil, pass2Body]
  rw [show innerIdx 1 0 = [] from rfl]
  simp only [List.foldl_nil]
  rw [c4_boundary1, c4_camera1]

theorem c4_pass2' : pass2 1 viewFar 1 c4s1 = c4s1 := by
  unfold pass2
  rw [show List.range (SOLVER_ITERATIONS - 1) = [0, 1, 2, 3, 4] from rfl]
  simp only [List.foldl_cons, List.foldl_nil]
  rw [c4_pass2Iter', c4_pass2Iter', c4_pass2Iter', c4_pass2Iter', c4_pass2Iter']

theorem c4_integrate1 : integrateP c4p1 = c4p2 := by
  simp only [integrateP]
  rw [if_neg (by
    simp only [c4p1, Vec3.smul, Vec3.lengthSq, maxSpeed, SUB_STEPS, dampingFactor_eq]
    push_cast
    nlinarith [d99_sq])]
  ext <;>
    simp only [c4p1, c4p2, Vec3.smul, Vec3.add, dampingFactor_eq] <;>
    ring

theorem c4_pass3' : pass3 1 c4s1 = c4s2 := by
  unfold pass3
  rw [show List.range 1 = [0] from rfl]
  simp only [List.foldl_cons, List.foldl_nil, integrateBody]
  rw [show getP c4s1 0 = c4p1 from rfl, c4_integrate1]
  rfl

theorem c4_pass4 : pass4 ((ENERGY_THRESHOLD - 0) * 0.003) 1 1 c4s2 = c4s2 := by
  unfold pass4
  rw [show List.range 1 = [0] from rfl]
  simp only [List.foldl_cons, List.foldl_nil]
  rw [show innerIdx 1 0 = [] from rfl]
  simp only [List.foldl_nil]

theorem c4_sub1 : subStep 1 viewFar 1 c4s1 1 = c4s2 := by
  unfold subStep
  rw [c4_pass1']
  simp only
  rw [if_pos (by norm_num [SUB_STEPS, ENERGY_THRESHOLD]), c4_pass2', c4_pass3', c4_pass4]

theorem c4_step : step 1 viewFar 1 c4s0 = c4s2 := by
  show (List.range SUB_STEPS).foldl (subStep 1 viewFar 1) c4s0 = c4s2
  rw [show List.range SUB_STEPS = [0, 1] from rfl]
  simp only [List.foldl_cons, List.foldl_nil]
  rw [c4_sub0, c4_sub1]

/-- C4 counterexample.  A single body at `(38.79,0,0)` with velocity
`(0.3,0,0)` and the viewer far away ends `step()` at distance
`38.99 + 0.2·√0.99 ≈ 39.19` from the origin: the boundary bound
`BOUNDARY_RADIUS - bodyRadius = 39` is exceeded by more than `0.1`, far
beyond any numerical epsilon, because Pass 3 integrates after the last
boundary enforcement. -/
theorem boundary_bound_violated :
    edgeDist 1 + 0.1 < (getP (step 1 viewFar c4s0.length c4s0) 0).position.length := by
  rw [show c4s0.length = 1 from rfl, c4_step,
    show getP c4s2 0 = c4p2 from rfl]
  have hl : c4p2.position.length = 38.99 + 0.2 * Real.sqrt 0.99 := by
    apply sqrt_eval (by positivity)
    simp only [c4p2, Vec3.lengthSq]
    ring
  rw [hl, edgeDist, BOUNDARY_RADIUS]
  nlinarith [d99_lb]

/-! ### Claim C5 counterexample: a body can end inside the camera zone -/

/-- The viewer at the origin for the C5 trace. -/
def camOrigin : Vec3 := ⟨0, 0, 0⟩

/-- A single body just outside the camera safe radius, moving toward the
viewer fast. -/
def c5p0 : Particle := ⟨⟨12.21, 0, 0⟩, ⟨-0.3, 0, 0⟩, ⟨0, 0, 0⟩, ⟨0, 0, 0⟩⟩

def c5s0 : State := [c5p0]

def c5p1 : Particle := ⟨⟨12.01, 0, 0⟩, ⟨-0.2, 0, 0⟩, ⟨0, 0, 0⟩, ⟨0, 0, 0⟩⟩

def c5s1 : State := [c5p1]

def c5p2 : Particle :=
  ⟨⟨12.01 - 0.2 * Real.sqrt 0.99, 0, 0⟩, ⟨-(0.2 * Real.sqrt 0.99), 0, 0⟩, ⟨0, 0, 0⟩, ⟨0, 0, 0⟩⟩

def c5s2 : State := [c5p2]

theorem c5_boundary0 : boundaryStep 1 0 c5s0 = c5s0 := by
  unfold boundaryStep
  rw [show getP c5s0 0 = c5p0 from rfl,
    if_neg (by simp only [c5p0, Vec3.lengthSq, edgeDist, BOUNDARY_RADIUS]; norm_num)]

theorem c5_camera0 : cameraStep camOrigin 0 c5s0 = c5s0 := by
  unfold cameraStep
  rw [show getP c5s0 0 = c5p0 from rfl,
    if_neg (by
      simp only [c5p0, camOrigin, Vec3.distanceToSquared, Vec3.sub, Vec3.lengthSq,
        cameraSafeRadiusSq, CAMERA_SAFE_RADIUS]
      norm_num)]

theorem c5_pass1 : pass1 1 camOrigin 1 0 c5s0 = (c5s0, 0.09) := by
  show (List.range 1).foldl (pass1Body 1 camOrigin 1 0) (c5s0, 0) = (c5s0, 0.09)
  rw [show List.range 1 = [0] from rfl]
  simp only [List.foldl_cons, List.foldl_nil, pass1Body]
  rw [show innerIdx 1 0 = [] from rfl]
  simp only [List.foldl_nil]
  rw [c5_boundary0, c5_camera0]
  norm_num [show getP c5s0 0 = c5p0 from rfl, c5p0, Vec3.lengthSq]

theorem c5_pass2Iter : pass2Iter 1 camOrigin 1 c5s0 = c5s0 := by
  show (List.range 1).foldl (pass2Body 1 camOrigin 1) c5s0 = c5s0
  rw [show List.range 1 = [0] from rfl]
  simp only [List.foldl_cons, List.foldl_nil, pass2Body]
  rw [show innerIdx 1 0 = [] from rfl]
  simp only [List.foldl_nil]
  rw [c5_boundary0, c5_camera0]

theorem c5_pass2 : pass2 1 camOrigin 1 c5s0 = c5s0 := by
  unfold pass2
  rw [show List.range (SOLVER_ITERATIONS - 1) = [0, 1, 2, 3, 4] from rfl]
  simp only [List.foldl_cons, List.foldl_nil]
  rw [c5_pass2Iter, c5_pass2Iter, c5_pass2Iter, c5_pass2Iter, c5_pass2Iter]

theorem c5_integrate0 : integrateP c5p0 = c5p1 := by
  simp only [integrateP]
  have hlen : ((c5p0.velocity).smul dampingFactor).length = 0.3 * Real.sqrt 0.99 := by
    apply sqrt_eval (by positivity)
    simp only [c5p0, Vec3.smul, Vec3.lengthSq, dampingFactor_eq]
    ring
  have hv2 : ((c5p0.velocity).smul dampingFactor).setLength maxSpeed = ⟨-0.2, 0, 0⟩ := by
    rw [Vec3.setLength, hlen]
    ext <;>
      simp only [c5p0, Vec3.smul, maxSpeed, SUB_STEPS, dampingFactor_eq] <;>
      push_cast <;>
      field_simp <;>
      ring
  rw [if_pos (by
    simp only [c5p0, Vec3.smul, Vec3.lengthSq, maxSpeed, SUB_STEPS, dampingFactor_eq]
    push_cast
    nlinarith [d99_sq]), hv2]
  ext <;> simp only [c5p0, c5p1, Vec3.add] <;> norm_num

theorem c5_pass3 : pass3 1 c5s0 = c5s1 := by
  unfold pass3
  rw [show List.range 1 = [0] from rfl]
  simp only [List.foldl_cons, List.foldl_nil, integrateBody]
  rw [show getP c5s0 0 = c5p0 from rfl, c5_integrate0]
  rfl

theorem c5_sub0 : subStep 1 camOrigin 1 c5s0 0 = c5s1 := by
  unfold subStep
  rw [c5_pass1]
  simp only
  rw [if_neg (by norm_num [SUB_STEPS, ENERGY_THRESHOLD]), c5_pass2, c5_pass3]

theorem c5_boundary1 : boundaryStep 1 0 c5s1 = c5s1 := by
  unfold boundaryStep
  rw [show getP c5s1 0 = c5p1 from rfl,
    if_neg (by simp only [c5p1, Vec3.lengthSq, edgeDist, BOUNDARY_RADIUS]; norm_num)]

theorem c5_camera1 : cameraStep camOrigin 0 c5s1 = c5s1 := by
  unfold cameraStep
  rw [show getP c5s1 0 = c5p1 from rfl,
    if_neg (by
      simp only [c5p1, camOrigin, Vec3.distanceToSquared, Vec3.sub, Vec3.lengthSq,
        cameraSafeRadiusSq, CAMERA_SAFE_RADIUS]
      norm_num)]

theorem c5_pass1' : pass1 1 camOrigin 1 1 c5s1 = (c5s1, 0) := by
  show (List.range 1).foldl (pass1Body 1 camOrigin 1 1) (c5s1, 0) = (c5s1, 0)
  rw [show List.range 1 = [0] from rfl]
  simp only [List.foldl_cons, List.foldl_nil, pass1Body]
  rw [show innerIdx 1 0 = [] from rfl]
  simp only [List.foldl_nil]
  rw [c5_boundary1, c5_camera1]
  norm_num

theorem c5_pass2Iter' : pass2Iter 1 camOrigin 1 c5s1 = c5s1 := by
  show (List.range 1).foldl (pass2Body 1 camOrigin 1) c5s1 = c5s1
  rw [show List.range 1 = [0] from rfl]
  simp only [List.foldl_cons, List.foldl_nil, pass2Body]
  rw [show innerIdx 1 0 = [] from rfl]
  simp only [List.foldl_nil]
  rw [c5_boundary1, c5_camera1]

theorem c5_pass2' : pass2 1 camOrigin 1 c5s1 = c5s1 := by
  unfold pass2
  rw [show List.range (SOLVER_ITERATIONS - 1) = [0, 1, 2, 3, 4] from rfl]
  simp only [List.foldl_cons, List.foldl_nil]
  rw [c5_pass2Iter', c5_pass2Iter', c5_pass2Iter', c5_pass2Iter', c5_pass2Iter']

theorem c5_integrate1 : integrateP c5p1 = c5p2 := by
  simp only [integrateP]
  rw [if_neg (by
    simp only [c5p1, Vec3.smul, Vec3.lengthSq, maxSpeed, SUB_STEPS, dampingFactor_eq]
    push_cast
    nlinarith [d99_sq])]
  ext <;>
    simp only [c5p1, c5p2, Vec3.smul, Vec3.add, dampingFactor_eq] <;>
    ring

theorem c5_pass3' : pass3 1 c5s1 = c5s2 := by
  unfold pass3
  rw [show List.range 1 = [0] from rfl]
  simp only [List.foldl_cons, List.foldl_nil, integrateBody]
  rw [show getP c5s1 0 = c5p1 from rfl, c5_integrate1]
  rfl

theorem c5_pass4 : pass4 ((ENERGY_THRESHOLD - 0) * 0.003) 1 1 c5s2 = c5s2 := by
  unfold pass4
  rw [show List.range 1 = [0] from rfl]
  simp only [List.foldl_cons, List.foldl_nil]
  rw [show innerIdx 1 0 = [] from rfl]
  simp only [List.foldl_nil]

theorem c5_sub1 : subStep 1 camOrigin 1 c5s1 1 = c5s2 := by
  unfold subStep
  rw [c5_pass1']
  simp only
  rw [if_pos (by norm_num [SUB_STEPS, ENERGY_THRESHOLD]), c5_pass2', c5_pass3', c5_pass4]

theorem c5_step : step 1 camOrigin 1 c5s0 = c5s2 := by
  show (List.range SUB_STEPS).foldl (subStep 1 camOrigin 1) c5s0 = c5s2
  rw [show List.range SUB_STEPS = [0, 1] from rfl]
  simp only [List.foldl_cons, List.foldl_nil]
  rw [c5_sub0, c5_sub1]

/-- C5 counterexample.  A single body at `(12.21,0,0)` moving at
`(-0.3,0,0)` toward a viewer at the origin ends `step()` at distance
`12.01 - 0.2·√0.99 ≈ 11.81` from the viewer: the camera exclusion
`cameraSafeRadius = 12` is undercut by more than `0.1`, far beyond any
numerical epsilon, because Pass 3 integrates after the last camera
enforcement. -/
theorem camera_exclusion_violated :
    ((getP (step 1 camOrigin c5s0.length c5s0) 0).position.sub camOrigin).length
      < CAMERA_SAFE_RADIUS - 0.1 := by
  rw [show c5s0.length = 1 from rfl, c5_step,
    show getP c5s2 0 = c5p2 from rfl]
  have hl : (c5p2.position.sub camOrigin).length = 12.01 - 0.2 * Real.sqrt 0.99 := by
    apply sqrt_eval (by nlinarith [d99_ub])
    simp only [c5p2, camOrigin, Vec3.sub, Vec3.lengthSq]
    ring
  rw [hl, CAMERA_SAFE_RADIUS]
  nlinarith [d99_lb]

/-! ### Claim C1: the Pass 4 gate reads a reset energy variable -/

/-- Two fast bodies, far apart, far from boundary and viewer: kinetic
energy 0.5 is well above the idle threshold 0.05. -/
def c1p0 : Particle := ⟨⟨5, 0, 0⟩, ⟨0.5, 0, 0⟩, ⟨0, 0, 0⟩, ⟨0, 0, 0⟩⟩

def c1q0 : Particle := ⟨⟨-5, 0, 0⟩, ⟨-0.5, 0, 0⟩, ⟨0, 0, 0⟩, ⟨0, 0, 0⟩⟩

def c1s0 : State := [c1p0, c1q0]

def c1p1 : Particle := ⟨⟨5.2, 0, 0⟩, ⟨0.2, 0, 0⟩, ⟨0, 0, 0⟩, ⟨0, 0, 0⟩⟩

def c1q1 : Particle := ⟨⟨-5.2, 0, 0⟩, ⟨-0.2, 0, 0⟩, ⟨0, 0, 0⟩, ⟨0, 0, 0⟩⟩

def c1s1 : State := [c1p1, c1q1]

def c1p2 : Particle :=
  ⟨⟨5.2 + 0.2 * Real.sqrt 0.99, 0, 0⟩, ⟨0.2 * Real.sqrt 0.99, 0, 0⟩, ⟨0, 0, 0⟩, ⟨0, 0, 0⟩⟩

def c1q2 : Particle :=
  ⟨⟨-(5.2 + 0.2 * Real.sqrt 0.99), 0, 0⟩, ⟨-(0.2 * Real.sqrt 0.99), 0, 0⟩, ⟨0, 0, 0⟩, ⟨0, 0, 0⟩⟩

def c1s2 : State := [c1p2, c1q2]

/-- The idle-diffusion push received by each of the two bodies on the
final sub-step (full force `0.05 * 0.003`, since the gate variable is 0). -/
def c1push : ℝ := 0.05 * 0.003 * (1 - (10.4 + 0.4 * Real.sqrt 0.99) / 30)

def c1p3 : Particle :=
  ⟨⟨5.2 + 0.2 * Real.sqrt 0.99, 0, 0⟩, ⟨0.2 * Real.sqrt 0.99 + c1push, 0, 0⟩,
   ⟨0, 0, 0⟩, ⟨0, 0, 0⟩⟩

def c1q3 : Particle :=
  ⟨⟨-(5.2 + 0.2 * Real.sqrt 0.99), 0, 0⟩, ⟨-(0.2 * Real.sqrt 0.99) - c1push, 0, 0⟩,
   ⟨0, 0, 0⟩, ⟨0, 0, 0⟩⟩

def c1s3 : State := [c1p3, c1q3]

theorem c1_pairskip : pairStep1 1 0 1 c1s0 = c1s0 := by
  simp only [pairStep1]
  rw [if_pos (Or.inl (by
    simp only [show getP c1s0 0 = c1p0 from rfl, show getP c1s0 1 = c1q0 from rfl,
      c1p0, c1q0, Vec3.distanceToSquared, Vec3.sub, Vec3.lengthSq,
      AURA_RADIUS_SQ, AURA_RADIUS]
    norm_num))]

theorem c1_b0 : boundaryStep 1 0 c1s0 = c1s0 := by
  unfold boundaryStep
  rw [show getP c1s0 0 = c1p0 from rfl,
    if_neg (by simp only [c1p0, Vec3.lengthSq, edgeDist, BOUNDARY_RADIUS]; norm_num)]

theorem c1_b1 : boundaryStep 1 1 c1s0 = c1s0 := by
  unfold boundaryStep
  rw [show getP c1s0 1 = c1q0 from rfl,
    if_neg (by simp only [c1q0, Vec3.lengthSq, edgeDist, BOUNDARY_RADIUS]; norm_num)]

theorem c1_c0 : cameraStep viewFar 0 c1s0 = c1s0 := by
  unfold cameraStep
  rw [show getP c1s0 0 = c1p0 from rfl,
    if_neg (by
      simp only [c1p0, viewFar, Vec3.distanceToSquared, Vec3.sub, Vec3.lengthSq,
        cameraSafeRadiusSq, CAMERA_SAFE_RADIUS]
      norm_num)]

theorem c1_c1 : cameraStep viewFar 1 c1s0 = c1s0 := by
  unfold cameraStep
  rw [show getP c1s0 1 = c1q0 from rfl,
    if_neg (by
      simp only [c1q0, viewFar, Vec3.distanceToSquared, Vec3.sub, Vec3.lengthSq,
        cameraSafeRadiusSq, CAMERA_SAFE_RADIUS]
      norm_num)]

theorem c1_body0 : pass1Body 1 viewFar 2 0 (c1s0, 0) 0 = (c1s0, 0.25) := by
  simp only [pass1Body]
  rw [show innerIdx 2 0 = [1] from rfl]
  simp only [List.foldl_cons, List.foldl_nil]
  rw [c1_pairskip, c1_b0, c1_c0]
  norm_num [show getP c1s0 0 = c1p0 from rfl, c1p0, Vec3.lengthSq]

theorem c1_body1 : pass1Body 1 viewFar 2 0 (c1s0, 0.25) 1 = (c1s0, 0.5) := by
  simp only [pass1Body]
  rw [show innerIdx 2 1 = [] from rfl]
  simp only [List.foldl_nil]
  rw [c1_b1, c1_c1]
  norm_num [show getP c1s0 1 = c1q0 from rfl, c1q0, Vec3.lengthSq]

theorem c1_pass1 : pass1 1 viewFar 2 0 c1s0 = (c1s0, 0.5) := by
  show (List.range 2).foldl (pass1Body 1 viewFar 2 0) (c1s0, 0) = (c1s0, 0.5)
  rw [show List.range 2 = [0, 1] from rfl]
  simp only [List.foldl_cons, List.foldl_nil]
  rw [c1_body0, c1_body1]

theorem c1_pair2skip : pairStep2 1 0 1 c1s0 = c1s0 := by
  simp only [pairStep2]
  rw [if_neg (by
    simp only [show getP c1s0 0 = c1p0 from rfl, show getP c1s0 1 = c1q0 from rfl,
      c1p0, c1q0, Vec3.distanceToSquared, Vec3.sub, Vec3.lengthSq,
      MIN_DIST_SQ, MIN_DIST]
    norm_num)]

theorem c1_pass2Iter : pass2Iter 1 viewFar 2 c1s0 = c1s0 := by
  show (List.range 2).foldl (pass2Body 1 viewFar 2) c1s0 = c1s0
  rw [show List.range 2 = [0, 1] from rfl]
  simp only [List.foldl_cons, List.foldl_nil, pass2Body]
  rw [show innerIdx 2 0 = [1] from rfl, show innerIdx 2 1 = [] from rfl]
  simp only [List.foldl_cons, List.foldl_nil]
  rw [c1_pair2skip, c1_b0, c1_c0, c1_b1, c1_c1]

theorem c1_pass2 : pass2 1 viewFar 2 c1s0 = c1s0 := by
  unfold pass2
  rw [show List.range (SOLVER_ITERATIONS - 1) = [0, 1, 2, 3, 4] from rfl]
  simp only [List.foldl_cons, List.foldl_nil]
  rw [c1_pass2Iter, c1_pass2Iter, c1_pass2Iter, c1_pass2Iter, c1_pass2Iter]

theorem c1_integrate_p0 : integrateP c1p0 = c1p1 := by
  simp only [integrateP]
  have hlen : ((c1p0.velocity).smul dampingFactor).length = 0.5 * Real.sqrt 0.99 := by
    apply sqrt_eval (by positivity)
    simp only [c1p0, Vec3.smul, Vec3.lengthSq, dampingFactor_eq]
    ring
  have hv2 : ((c1p0.velocity).smul dampingFactor).setLength maxSpeed = ⟨0.2, 0, 0⟩ := by
    rw [Vec3.setLength, hlen]
    ext <;>
      simp only [c1p0, Vec3.smul, maxSpeed, SUB_STEPS, dampingFactor_eq] <;>
      push_cast <;>
      field_simp <;>
      ring
  rw [if_pos (by
    simp only [c1p0, Vec3.smul, Vec3.lengthSq, maxSpeed, SUB_STEPS, dampingFactor_eq]
    push_cast
    nlinarith [d99_sq]), hv2]
  ext <;> simp only [c1p0, c1p1, Vec3.add] <;> norm_num

theorem c1_integrate_q0 : integrateP c1q0 = c1q1 := by
  simp only [integrateP]
  have hlen : ((c1q0.velocity).smul dampingFactor).length = 0.5 * Real.sqrt 0.99 := by
    apply sqrt_eval (by positivity)
    simp only [c1q0, Vec3.smul, Vec3.lengthSq, dampingFactor_eq]
    ring
  have hv2 : ((c1q0.velocity).smul dampingFactor).setLength maxSpeed = ⟨-0.2, 0, 0⟩ := by
    rw [Vec3.setLength, hlen]
    ext <;>
      simp only [c1q0, Vec3.smul, maxSpeed, SUB_STEPS, dampingFactor_eq] <;>
      push_cast <;>
      field_simp <;>
      ring
  rw [if_pos (by
    simp only [c1q0, Vec3.smul, Vec3.lengthSq, maxSpeed, SUB_STEPS, dampingFactor_eq]
    push_cast
    nlinarith [d99_sq]), hv2]
  ext <;> simp only [c1q0, c1q1, Vec3.add] <;> norm_num

theorem c1_pass3 : pass3 2 c1s0 = c1s1 := by
  unfold pass3
  rw [show List.range 2 = [0, 1] from rfl]
  simp only [List.foldl_cons, List.foldl_nil, integrateBody]
  rw [show getP c1s0 0 = c1p0 from rfl, c1_integrate_p0,
    show c1s0.set 0 c1p1 = [c1p1, c1q0] from rfl,
    show getP [c1p1, c1q0] 1 = c1q0 from rfl, c1_integrate_q0]
  rfl

theorem c1_sub0 : subStep 1 viewFar 2 c1s0 0 = c1s1 := by
  unfold subStep
  rw [c1_pass1]
  simp only
  rw [if_neg (by norm_num [SUB_STEPS, ENERGY_THRESHOLD]), c1_pass2, c1_pass3]

theorem c1_pairskip' : pairStep1 1 0 1 c1s1 = c1s1 := by
  simp only [pairStep1]
  rw [if_pos (Or.inl (by
    simp only [show getP c1s1 0 = c1p1 from rfl, show getP c1s1 1 = c1q1 from rfl,
      c1p1, c1q1, Vec3.distanceToSquared, Vec3.sub, Vec3.lengthSq,
      AURA_RADIUS_SQ, AURA_RADIUS]
    norm_num))]

theorem c1_b0' : boundaryStep 1 0 c1s1 = c1s1 := by
  unfold boundaryStep
  rw [show getP c1s1 0 = c1p1 from rfl,
    if_neg (by simp only [c1p1, Vec3.lengthSq, edgeDist, BOUNDARY_RADIUS]; norm_num)]

theorem c1_b1' : boundaryStep 1 1 c1s1 = c1s1 := by
  unfold boundaryStep
  rw [show getP c1s1 1 = c1q1 from rfl,
    if_neg (by simp only [c1q1, Vec3.lengthSq, edgeDist, BOUNDARY_RADIUS]; norm_num)]

theorem c1_c0' : cameraStep viewFar 0 c1s1 = c1s1 := by
  unfold cameraStep
  rw [show getP c1s1 0 = c1p1 from rfl,
    if_neg (by
      simp only [c1p1, viewFar, Vec3.distanceToSquared, Vec3.sub, Vec3.lengthSq,
        cameraSafeRadiusSq, CAMERA_SAFE_RADIUS]
      norm_num)]

theorem c1_c1' : cameraStep viewFar 1 c1s1 = c1s1 := by
  unfold cameraStep
  rw [show getP c1s1 1 = c1q1 from rfl,
    if_neg (by
      simp only [c1q1, viewFar, Vec3.distanceToSquared, Vec3.sub, Vec3.lengthSq,
        cameraSafeRadiusSq, CAMERA_SAFE_RADIUS]
      norm_num)]

theorem c1_pass1' : pass1 1 viewFar 2 1 c1s1 = (c1s1, 0) := by
  show (List.range 2).foldl (pass1Body 1 viewFar 2 1) (c1s1, 0) = (c1s1, 0)
  rw [show List.range 2 = [0, 1] from rfl]
  simp only [List.foldl_cons, List.foldl_nil, pass1Body]
  rw [show innerIdx 2 0 = [1] from rfl, show innerIdx 2 1 = [] from rfl]
  simp only [List.foldl_cons, List.foldl_nil]
  rw [c1_pairskip', c1_b0', c1_c0', c1_b1', c1_c1']
  norm_num

theorem c1_pair2skip' : pairStep2 1 0 1 c1s1 = c1s1 := by
  simp only [pairStep2]
  rw [if_neg (by
    simp only [show getP c1s1 0 = c1p1 from rfl, show getP c1s1 1 = c1q1 from rfl,
      c1p1, c1q1, Vec3.distanceToSquared, Vec3.sub, Vec3.lengthSq,
      MIN_DIST_SQ, MIN_DIST]
    norm_num)]

theorem c1_pass2Iter' : pass2Iter 1 viewFar 2 c1s1 = c1s1 := by
  show (List.range 2).foldl (pass2Body 1 viewFar 2) c1s1 = c1s1
  rw [show List.range 2 = [0, 1] from rfl]
  simp only [List.foldl_cons, List.foldl_nil, pass2Body]
  rw [show innerIdx 2 0 = [1] from rfl, show innerIdx 2 1 = [] from rfl]
  simp only [List.foldl_cons, List.foldl_nil]
  rw [c1_pair2skip', c1_b0', c1_c0', c1_b1', c1_c1']

theorem c1_pass2' : pass2 1 viewFar 2 c1s1 = c1s1 := by
  unfold pass2
  rw [show List.range (SOLVER_ITERATIONS - 1) = [0, 1, 2, 3, 4] from rfl]
  simp only [List.foldl_cons, List.foldl_nil]
  rw [c1_pass2Iter', c1_pass2Iter', c1_pass2Iter', c1_pass2Iter', c1_pass2Iter']

theorem c1_integrate_p1 : integrateP c1p1 = c1p2 := by
  simp only [integrateP]
  rw [if_neg (by
    simp only [c1p1, Vec3.smul, Vec3.lengthSq, maxSpeed, SUB_STEPS, dampingFactor_eq]
    push_cast
    nlinarith [d99_sq])]
  ext <;>
    simp only [c1p1, c1p2, Vec3.smul, Vec3.add, dampingFactor_eq] <;>
    ring

theorem c1_integrate_q1 : integrateP c1q1 = c1q2 := by
  simp only [integrateP]
  rw [if_neg (by
    simp only [c1q1, Vec3.smul, Vec3.lengthSq, maxSpeed, SUB_STEPS, dampingFactor_eq]
    push_cast
    nlinarith [d99_sq])]
  ext <;>
    simp only [c1q1, c1q2, Vec3.smul, Vec3.add, dampingFactor_eq] <;>
    ring

theorem c1_pass3' : pass3 2 c1s1 = c1s2 := by
  unfold pass3
  rw [show List.range 2 = [0, 1] from rfl]
  simp only [List.foldl_cons, List.foldl_nil, integrateBody]
  rw [show getP c1s1 0 = c1p1 from rfl, c1_integrate_p1,
    show c1s1.set 0 c1p2 = [c1p2, c1q1] from rfl,
    show getP [c1p2, c1q1] 1 = c1q1 from rfl, c1_integrate_q1]
  rfl

theorem c1_pair4 :
    pairStep4 ((ENERGY_THRESHOLD - 0) * 0.003) 1 0 1 c1s2 = c1s3 := by
  have hg : (0 : ℝ) < 10.4 + 0.4 * Real.sqrt 0.99 := by nlinarith [d99_lb]
  have hds : Vec3.distanceToSquared (getP c1s2 0).position (getP c1s2 1).position
      = (10.4 + 0.4 * Real.sqrt 0.99) * (10.4 + 0.4 * Real.sqrt 0.99) := by
    simp only [show getP c1s2 0 = c1p2 from rfl, show getP c1s2 1 = c1q2 from rfl,
      c1p2, c1q2, Vec3.distanceToSquared, Vec3.sub, Vec3.lengthSq]
    ring
  simp only [pairStep4]
  rw [hds, if_pos (by
    constructor
    · simp only [MIN_DIST_SQ, MIN_DIST]
      nlinarith [d99_lb, d99_ub]
    · simp only [MAX_INFLUENCE_RADIUS_SQ, MAX_INFLUENCE_RADIUS, BOUNDARY_RADIUS]
      nlinarith [d99_lb, d99_ub]),
    Real.sqrt_mul_self (le_of_lt hg)]
  show setPair c1s2 0 1 _ _ = c1s3
  rw [show setPair c1s2 0 1 = fun a b => [a, b] from rfl]
  simp only [show getP c1s2 0 = c1p2 from rfl, show getP c1s2 1 = c1q2 from rfl, c1s3]
  have hne : (10.4 + 0.4 * Real.sqrt 0.99) ≠ 0 := ne_of_gt hg
  refine List.cons_eq_cons.2 ⟨?_, List.cons_eq_cons.2 ⟨?_, rfl⟩⟩ <;>
    ext <;>
      simp only [c1p2, c1q2, c1p3, c1q3, c1push, Vec3.addScaled, Vec3.add, Vec3.sub,
        Vec3.smul, ENERGY_THRESHOLD, MAX_INFLUENCE_RADIUS, BOUNDARY_RADIUS] <;>
      field_simp <;>
      ring

theorem c1_pass4 :
    pass4 ((ENERGY_THRESHOLD - 0) * 0.003) 1 2 c1s2 = c1s3 := by
  unfold pass4
  rw [show List.range 2 = [0, 1] from rfl]
  simp only [List.foldl_cons, List.foldl_nil]
  rw [show innerIdx 2 0 = [1] from rfl, show innerIdx 2 1 = [] from rfl]
  simp only [List.foldl_cons, List.foldl_nil]
  rw [c1_pair4]

theorem c1_sub1 : subStep 1 viewFar 2 c1s1 1 = c1s3 := by
  unfold subStep
  rw [c1_pass1']
  simp only
  rw [if_pos (by norm_num [SUB_STEPS, ENERGY_THRESHOLD]), c1_pass2', c1_pass3', c1_pass4]

theorem c1_step : step 1 viewFar 2 c1s0 = c1s3 := by
  show (List.range SUB_STEPS).foldl (subStep 1 viewFar 2) c1s0 = c1s3
  rw [show List.range SUB_STEPS = [0, 1] from rfl]
  simp only [List.foldl_cons, List.foldl_nil]
  rw [c1_sub0, c1_sub1]

/-- C1 (code bug).  At this input the kinetic energy accumulated during
the first sub-step's Pass 1 is `0.5 ≥ 0.05`, so by the claim (and by the
code's own comments) the idle-diffusion pushes must not be applied; yet
after `step()` body 0's velocity carries a strictly positive diffusion
push `c1push` on top of the damped value `0.2·√0.99`.  The cause:
`totalKineticEnergy` is re-declared at the top of each sub-step and only
accumulated when `step === 0`, so the Pass 4 gate on the final sub-step
always reads 0 and fires at full force. -/
theorem pass4_fires_despite_high_energy :
    ENERGY_THRESHOLD ≤ (pass1 1 viewFar 2 0 c1s0).2
    ∧ (getP (step 1 viewFar c1s0.length c1s0) 0).velocity
        = ⟨0.2 * Real.sqrt 0.99 + c1push, 0, 0⟩
    ∧ 0 < c1push := by
  refine ⟨?_, ?_, ?_⟩
  · rw [c1_pass1]
    norm_num [ENERGY_THRESHOLD]
  · rw [show c1s0.length = 2 from rfl, c1_step, show getP c1s3 0 = c1p3 from rfl]
    rfl
  · rw [c1push]
    nlinarith [d99_lb, d99_ub]

/-! ### Claim C2 (amended): Pass 2 re-scans every pair by current distance -/

/-- C2 (amended).  Each extra solver iteration of Pass 2 re-examines every
unordered pair and applies the hard-collision position correction (and,
for closing pairs, the impulse) exactly when the pair's current squared
distance at examination time lies strictly between the noise floor and
`minSeparation²` — there is no cache of pairs flagged in Pass 1, so pairs
that first come within `minSeparation` during Pass 1's or Pass 2's own
corrections are resolved within the same sub-step. -/
theorem pass2_rescans_all_pairs (R : ℝ) (s : State) (i j : ℕ)
    (hij : i ≠ j) (hi : i < s.length) (hj : j < s.length) :
    (∀ (_ : Vec3.distanceToSquared (getP s i).position (getP s j).position < MIN_DIST_SQ R)
       (_ : 0.000001 < Vec3.distanceToSquared (getP s i).position (getP s j).position),
      (getP (pairStep2 R i j s) i).position =
          (getP s i).position.addScaled
            (((getP s i).position.sub (getP s j).position).smul
              (1 / Real.sqrt (Vec3.distanceToSquared (getP s i).position (getP s j).position)))
            ((MIN_DIST R -
              Real.sqrt (Vec3.distanceToSquared (getP s i).position (getP s j).position)) * 0.55)
      ∧ (getP (pairStep2 R i j s) j).position =
          (getP s j).position.addScaled
            (((getP s i).position.sub (getP s j).position).smul
              (1 / Real.sqrt (Vec3.distanceToSquared (getP s i).position (getP s j).position)))
            (-((MIN_DIST R -
              Real.sqrt (Vec3.distanceToSquared (getP s i).position (getP s j).position)) * 0.55)))
    ∧ (∀ (_ : ¬(Vec3.distanceToSquared (getP s i).position (getP s j).position < MIN_DIST_SQ R
          ∧ 0.000001 < Vec3.distanceToSquared (getP s i).position (getP s j).position)),
        pairStep2 R i j s = s) := by
  constructor
  · intro hclose hfloor
    by_cases hrel : (getP s i).velocity.dot
          (((getP s i).position.sub (getP s j).position).smul
            (1 / Real.sqrt (Vec3.distanceToSquared (getP s i).position (getP s j).position)))
        - (getP s j).velocity.dot
          (((getP s i).position.sub (getP s j).position).smul
            (1 / Real.sqrt (Vec3.distanceToSquared (getP s i).position (getP s j).position)))
        < 0
    · have heval : pairStep2 R i j s = setPair s i j
          { getP s i with
            position := (getP s i).position.addScaled
              (((getP s i).position.sub (getP s j).position).smul
                (1 / Real.sqrt (Vec3.distanceToSquared (getP s i).position (getP s j).position)))
              ((MIN_DIST R -
                Real.sqrt (Vec3.distanceToSquared (getP s i).position (getP s j).position)) * 0.55)
            velocity := (getP s i).velocity.addScaled
              (((getP s i).position.sub (getP s j).position).smul
                (1 / Real.sqrt (Vec3.distanceToSquared (getP s i).position (getP s j).position)))
              (max (0.005 / (SUB_STEPS : ℝ))
                (-((getP s i).velocity.dot
                    (((getP s i).position.sub (getP s j).position).smul
                      (1 / Real.sqrt (Vec3.distanceToSquared (getP s i).position (getP s j).position)))
                  - (getP s j).velocity.dot
                    (((getP s i).position.sub (getP s j).position).smul
                      (1 / Real.sqrt (Vec3.distanceToSquared (getP s i).position (getP s j).position))))
                  * (1 + RESTITUTION)) * 0.5) }
          { getP s j with
            position := (getP s j).position.addScaled
              (((getP s i).position.sub (getP s j).position).smul
                (1 / Real.sqrt (Vec3.distanceToSquared (getP s i).position (getP s j).position)))
              (-((MIN_DIST R -
                Real.sqrt (Vec3.distanceToSquared (getP s i).position (getP s j).position)) * 0.55))
            velocity := (getP s j).velocity.addScaled
              (((getP s i).position.sub (getP s j).position).smul
                (1 / Real.sqrt (Vec3.distanceToSquared (getP s i).position (getP s j).position)))
              (-(max (0.005 / (SUB_STEPS : ℝ))
                (-((getP s i).velocity.dot
                    (((getP s i).position.sub (getP s j).position).smul
                      (1 / Real.sqrt (Vec3.distanceToSquared (getP s i).position (getP s j).position)))
                  - (getP s j).velocity.dot
                    (((getP s i).position.sub (getP s j).position).smul
                      (1 / Real.sqrt (Vec3.distanceToSquared (getP s i).position (getP s j).position))))
                  * (1 + RESTITUTION)) * 0.5)) } := by
        simp only [pairStep2]
        rw [if_pos ⟨hclose, hfloor⟩, if_pos hrel]
      rw [heval, getP_setPair_left _ _ _ _ _ hij hi, getP_setPair_right _ _ _ _ _ hj]
      exact ⟨rfl, rfl⟩
    · have heval : pairStep2 R i j s = setPair s i j
          { getP s i with
            position := (getP s i).position.addScaled
              (((getP s i).position.sub (getP s j).position).smul
                (1 / Real.sqrt (Vec3.distanceToSquared (getP s i).position (getP s j).position)))
              ((MIN_DIST R -
                Real.sqrt (Vec3.distanceToSquared (getP s i).position (getP s j).position)) * 0.55) }
          { getP s j with
            position := (getP s j).position.addScaled
              (((getP s i).position.sub (getP s j).position).smul
                (1 / Real.sqrt (Vec3.distanceToSquared (getP s i).position (getP s j).position)))
              (-((MIN_DIST R -
                Real.sqrt (Vec3.distanceToSquared (getP s i).position (getP s j).position)) * 0.55)) } := by
        simp only [pairStep2]
        rw [if_pos ⟨hclose, hfloor⟩, if_neg hrel]
      rw [heval, getP_setPair_left _ _ _ _ _ hij hi, getP_setPair_right _ _ _ _ _ hj]
      exact ⟨rfl, rfl⟩
  · intro hskip
    simp only [pairStep2]
    rw [if_neg hskip]

/-- Witness for the amended C2 at the concrete state `twoBalls`. -/
theorem pass2_rescans_all_pairs_witness :
    (getP (pairStep2 1 0 1 twoBalls) 0).position =
      (getP twoBalls 0).position.addScaled
        (((getP twoBalls 0).position.sub (getP twoBalls 1).position).smul
          (1 / Real.sqrt (Vec3.distanceToSquared (getP twoBalls 0).position
            (getP twoBalls 1).position)))
        ((MIN_DIST 1 - Real.sqrt (Vec3.distanceToSquared (getP twoBalls 0).position
            (getP twoBalls 1).position)) * 0.55) := by
  have h := (pass2_rescans_all_pairs 1 twoBalls 0 1 (by norm_num)
      (by norm_num [twoBalls]) (by norm_num [twoBalls])).1
    (by rw [twoBalls_distSq]; norm_num [MIN_DIST_SQ, MIN_DIST])
    (by rw [twoBalls_distSq]; norm_num)
  exact h.1

/-! ### Claim C2 counterexample: Pass 2 corrects a pair never flagged in Pass 1 -/

def c2a0 : Particle := ⟨⟨0, 0, 0⟩, ⟨0, 0, 0⟩, ⟨0, 0, 0⟩, ⟨0, 0, 0⟩⟩

def c2b0 : Particle := ⟨⟨2.1, 0, 0⟩, ⟨0, 0, 0⟩, ⟨0, 0, 0⟩, ⟨0, 0, 0⟩⟩

def c2c0 : Particle := ⟨⟨-1, 0, 0⟩, ⟨0, 0, 0⟩, ⟨0, 0, 0⟩, ⟨0, 0, 0⟩⟩

def c2s0 : State := [c2a0, c2b0, c2c0]

def c2aA : Particle := ⟨⟨0, 0, 0⟩, ⟨-0.000128, 0, 0⟩, ⟨0, 0, 0⟩, ⟨0, 0, 0⟩⟩

def c2bA : Particle := ⟨⟨2.1, 0, 0⟩, ⟨0.000128, 0, 0⟩, ⟨0, 0, 0⟩, ⟨0, 0, 0⟩⟩

def c2sA : State := [c2aA, c2bA, c2c0]

def c2a1 : Particle := ⟨⟨0.5775, 0, 0⟩, ⟨0.001122, 0, 0⟩, ⟨0, 0, 0⟩, ⟨0, 0, 0⟩⟩

def c2c1 : Particle := ⟨⟨-1.5775, 0, 0⟩, ⟨-0.00125, 0, 0⟩, ⟨0, 0, 0⟩, ⟨0, 0, 0⟩⟩

def c2s1 : State := [c2a1, c2bA, c2c1]

def c2aB : Particle := ⟨⟨0.287375, 0, 0⟩, ⟨-0.000128, 0, 0⟩, ⟨0, 0, 0⟩, ⟨0, 0, 0⟩⟩

def c2bB : Particle := ⟨⟨2.390125, 0, 0⟩, ⟨0.001378, 0, 0⟩, ⟨0, 0, 0⟩, ⟨0, 0, 0⟩⟩

def c2sB : State := [c2aB, c2bB, c2c1]

def c2aC : Particle := ⟨⟨0.38919375, 0, 0⟩, ⟨-0.000128, 0, 0⟩, ⟨0, 0, 0⟩, ⟨0, 0, 0⟩⟩

def c2cC : Particle := ⟨⟨-1.67931875, 0, 0⟩, ⟨-0.00125, 0, 0⟩, ⟨0, 0, 0⟩, ⟨0, 0, 0⟩⟩

def c2sC : State := [c2aC, c2bB, c2cC]

theorem c2_p1_01 : pairStep1 1 0 1 c2s0 = c2sA := by
  have hds : Vec3.distanceToSquared (getP c2s0 0).position (getP c2s0 1).position
      = 2.1 * 2.1 := by
    simp only [show getP c2s0 0 = c2a0 from rfl, show getP c2s0 1 = c2b0 from rfl,
      c2a0, c2b0, Vec3.distanceToSquared, Vec3.sub, Vec3.lengthSq]
    norm_num
  simp only [pairStep1]
  rw [hds, if_neg (by simp only [AURA_RADIUS_SQ, AURA_RADIUS]; push_neg; norm_num),
    Real.sqrt_mul_self (by norm_num : (0:ℝ) ≤ 2.1),
    if_neg (by simp only [MIN_DIST]; norm_num)]
  rw [show setPair c2s0 0 1 = fun x y => [x, y, c2c0] from rfl]
  simp only [show getP c2s0 0 = c2a0 from rfl, show getP c2s0 1 = c2b0 from rfl, c2sA]
  refine List.cons_eq_cons.2 ⟨?_, List.cons_eq_cons.2 ⟨?_, rfl⟩⟩ <;>
    ext <;>
      simp only [c2a0, c2b0, c2aA, c2bA, Vec3.addScaled, Vec3.add, Vec3.sub, Vec3.smul,
        AURA_RADIUS, SUB_STEPS] <;>
      push_cast <;>
      norm_num

theorem c2_p1_02 : pairStep1 1 0 2 c2sA = c2s1 := by
  have hds : Vec3.distanceToSquared (getP c2sA 0).position (getP c2sA 2).position
      = 1 * 1 := by
    simp only [show getP c2sA 0 = c2aA from rfl, show getP c2sA 2 = c2c0 from rfl,
      c2aA, c2c0, Vec3.distanceToSquared, Vec3.sub, Vec3.lengthSq]
    norm_num
  simp only [pairStep1]
  rw [hds, if_neg (by simp only [AURA_RADIUS_SQ, AURA_RADIUS]; push_neg; norm_num),
    Real.sqrt_mul_self (by norm_num : (0:ℝ) ≤ 1),
    if_pos (by simp only [MIN_DIST]; norm_num),
    if_pos (by
      simp only [show getP c2sA 0 = c2aA from rfl, show getP c2sA 2 = c2c0 from rfl,
        c2aA, c2c0, Vec3.dot, Vec3.sub, Vec3.smul]
      norm_num)]
  rw [show setPair c2sA 0 2 = fun x y => [x, c2bA, y] from rfl]
  simp only [show getP c2sA 0 = c2aA from rfl, show getP c2sA 2 = c2c0 from rfl, c2s1]
  refine List.cons_eq_cons.2 ⟨?_, List.cons_eq_cons.2 ⟨rfl, List.cons_eq_cons.2 ⟨?_, rfl⟩⟩⟩ <;>
    ext <;>
      simp only [c2aA, c2c0, c2a1, c2c1, Vec3.addScaled, Vec3.add, Vec3.sub, Vec3.smul,
        Vec3.dot, MIN_DIST, RESTITUTION, SUB_STEPS, max_def] <;>
      push_cast <;>
      norm_num

theorem c2_p1_12 : pairStep1 1 1 2 c2s1 = c2s1 := by
  simp only [pairStep1]
  rw [if_pos (Or.inl (by
    simp only [show getP c2s1 1 = c2bA from rfl, show getP c2s1 2 = c2c1 from rfl,
      c2bA, c2c1, Vec3.distanceToSquared, Vec3.sub, Vec3.lengthSq,
      AURA_RADIUS_SQ, AURA_RADIUS]
    norm_num))]

theorem c2_b0 : boundaryStep 1 0 c2s1 = c2s1 := by
  unfold boundaryStep
  rw [show getP c2s1 0 = c2a1 from rfl,
    if_neg (by simp only [c2a1, Vec3.lengthSq, edgeDist, BOUNDARY_RADIUS]; norm_num)]

theorem c2_b1 : boundaryStep 1 1 c2s1 = c2s1 := by
  unfold boundaryStep
  rw [show getP c2s1 1 = c2bA from rfl,
    if_neg (by simp only [c2bA, Vec3.lengthSq, edgeDist, BOUNDARY_RADIUS]; norm_num)]

theorem c2_b2 : boundaryStep 1 2 c2s1 = c2s1 := by
  unfold boundaryStep
  rw [show getP c2s1 2 = c2c1 from rfl,
    if_neg (by simp only [c2c1, Vec3.lengthSq, edgeDist, BOUNDARY_RADIUS]; norm_num)]

theorem c2_c0 : cameraStep viewFar 0 c2s1 = c2s1 := by
  unfold cameraStep
  rw [show getP c2s1 0 = c2a1 from rfl,
    if_neg (by
      simp only [c2a1, viewFar, Vec3.distanceToSquared, Vec3.sub, Vec3.lengthSq,
        cameraSafeRadiusSq, CAMERA_SAFE_RADIUS]
      norm_num)]

theorem c2_c1 : cameraStep viewFar 1 c2s1 = c2s1 := by
  unfold cameraStep
  rw [show getP c2s1 1 = c2bA from rfl,
    if_neg (by
      simp only [c2bA, viewFar, Vec3.distanceToSquared, Vec3.sub, Vec3.lengthSq,
        cameraSafeRadiusSq, CAMERA_SAFE_RADIUS]
      norm_num)]

theorem c2_c2 : cameraStep viewFar 2 c2s1 = c2s1 := by
  unfold cameraStep
  rw [show getP c2s1 2 = c2c1 from rfl,
    if_neg (by
      simp only [c2c1, viewFar, Vec3.distanceToSquared, Vec3.sub, Vec3.lengthSq,
        cameraSafeRadiusSq, CAMERA_SAFE_RADIUS]
      norm_num)]

theorem c2_body0 : pass1Body 1 viewFar 3 0 (c2s0, 0) 0 = (c2s1, 0) := by
  simp only [pass1Body]
  rw [show innerIdx 3 0 = [1, 2] from rfl]
  simp only [List.foldl_cons, List.foldl_nil]
  rw [c2_p1_01, c2_p1_02, c2_b0, c2_c0]
  norm_num [show getP c2s0 0 = c2a0 from rfl, c2a0, Vec3.lengthSq]

theorem c2_body1 : pass1Body 1 viewFar 3 0 (c2s1, 0) 1 = (c2s1, 0.000000016384) := by
  simp only [pass1Body]
  rw [show innerIdx 3 1 = [2] from rfl]
  simp only [List.foldl_cons, List.foldl_nil]
  rw [c2_p1_12, c2_b1, c2_c1]
  norm_num [show getP c2s1 1 = c2bA from rfl, c2bA, Vec3.lengthSq]

theorem c2_body2 : pass1Body 1 viewFar 3 0 (c2s1, 0.000000016384) 2
    = (c2s1, 0.000001578884) := by
  simp only [pass1Body]
  rw [show innerIdx 3 2 = [] from rfl]
  simp only [List.foldl_nil]
  rw [c2_b2, c2_c2]
  norm_num [show getP c2s1 2 = c2c1 from rfl, c2c1, Vec3.lengthSq]

theorem c2_pass1 : pass1 1 viewFar 3 0 c2s0 = (c2s1, 0.000001578884) := by
  show (List.range 3).foldl (pass1Body 1 viewFar 3 0) (c2s0, 0) = (c2s1, 0.000001578884)
  rw [show List.range 3 = [0, 1, 2] from rfl]
  simp only [List.foldl_cons, List.foldl_nil]
  rw [c2_body0, c2_body1, c2_body2]

theorem c2_p2_01 : pairStep2 1 0 1 c2s1 = c2sB := by
  have hds : Vec3.distanceToSquared (getP c2s1 0).position (getP c2s1 1).position
      = 1.5225 * 1.5225 := by
    simp only [show getP c2s1 0 = c2a1 from rfl, show getP c2s1 1 = c2bA from rfl,
      c2a1, c2bA, Vec3.distanceToSquared, Vec3.sub, Vec3.lengthSq]
    norm_num
  simp only [pairStep2]
  rw [hds, if_pos (by
      constructor
      · simp only [MIN_DIST_SQ, MIN_DIST]; norm_num
      · norm_num),
    Real.sqrt_mul_self (by norm_num : (0:ℝ) ≤ 1.5225),
    if_pos (by
      simp only [show getP c2s1 0 = c2a1 from rfl, show getP c2s1 1 = c2bA from rfl,
        c2a1, c2bA, Vec3.dot, Vec3.sub, Vec3.smul]
      norm_num)]
  rw [show setPair c2s1 0 1 = fun x y => [x, y, c2c1] from rfl]
  simp only [show getP c2s1 0 = c2a1 from rfl, show getP c2s1 1 = c2bA from rfl, c2sB]
  refine List.cons_eq_cons.2 ⟨?_, List.cons_eq_cons.2 ⟨?_, rfl⟩⟩ <;>
    ext <;>
      simp only [c2a1, c2bA, c2aB, c2bB, Vec3.addScaled, Vec3.add, Vec3.sub, Vec3.smul,
        Vec3.dot, MIN_DIST, RESTITUTION, SUB_STEPS, max_def] <;>
      push_cast <;>
      norm_num

theorem c2_p2_02 : pairStep2 1 0 2 c2sB = c2sC := by
  have hds : Vec3.distanceToSquared (getP c2sB 0).position (getP c2sB 2).position
      = 1.864875 * 1.864875 := by
    simp only [show getP c2sB 0 = c2aB from rfl, show getP c2sB 2 = c2c1 from rfl,
      c2aB, c2c1, Vec3.distanceToSquared, Vec3.sub, Vec3.lengthSq]
    norm_num
  simp only [pairStep2]
  rw [hds, if_pos (by
      constructor
      · simp only [MIN_DIST_SQ, MIN_DIST]; norm_num
      · norm_num),
    Real.sqrt_mul_self (by norm_num : (0:ℝ) ≤ 1.864875),
    if_neg (by
      simp only [show getP c2sB 0 = c2aB from rfl, show getP c2sB 2 = c2c1 from rfl,
        c2aB, c2c1, Vec3.dot, Vec3.sub, Vec3.smul]
      norm_num)]
  rw [show setPair c2sB 0 2 = fun x y => [x, c2bB, y] from rfl]
  simp only [show getP c2sB 0 = c2aB from rfl, show getP c2sB 2 = c2c1 from rfl, c2sC]
  refine List.cons_eq_cons.2 ⟨?_, List.cons_eq_cons.2 ⟨rfl, List.cons_eq_cons.2 ⟨?_, rfl⟩⟩⟩ <;>
    ext <;>
      simp only [c2aB, c2c1, c2aC, c2cC, Vec3.addScaled, Vec3.add, Vec3.sub, Vec3.smul,
        MIN_DIST] <;>
      push_cast <;>
      norm_num

theorem c2_p2_12 : pairStep2 1 1 2 c2sC = c2sC := by
  simp only [pairStep2]
  rw [if_neg (by
    simp only [show getP c2sC 1 = c2bB from rfl, show getP c2sC 2 = c2cC from rfl,
      c2bB, c2cC, Vec3.distanceToSquared, Vec3.sub, Vec3.lengthSq, MIN_DIST_SQ, MIN_DIST]
    push_neg
    intro h
    norm_num at h)]

theorem c2_b0' : boundaryStep 1 0 c2sC = c2sC := by
  unfold boundaryStep
  rw [show getP c2sC 0 = c2aC from rfl,
    if_neg (by simp only [c2aC, Vec3.lengthSq, edgeDist, BOUNDARY_RADIUS]; norm_num)]

theorem c2_b1' : boundaryStep 1 1 c2sC = c2sC := by
  unfold boundaryStep
  rw [show getP c2sC 1 = c2bB from rfl,
    if_neg (by simp only [c2bB, Vec3.lengthSq, edgeDist, BOUNDARY_RADIUS]; norm_num)]

theorem c2_b2' : boundaryStep 1 2 c2sC = c2sC := by
  unfold boundaryStep
  rw [show getP c2sC 2 = c2cC from rfl,
    if_neg (by simp only [c2cC, Vec3.lengthSq, edgeDist, BOUNDARY_RADIUS]; norm_num)]

theorem c2_c0' : cameraStep viewFar 0 c2sC = c2sC := by
  unfold cameraStep
  rw [show getP c2sC 0 = c2aC from rfl,
    if_neg (by
      simp only [c2aC, viewFar, Vec3.distanceToSquared, Vec3.sub, Vec3.lengthSq,
        cameraSafeRadiusSq, CAMERA_SAFE_RADIUS]
      norm_num)]

theorem c2_c1' : cameraStep viewFar 1 c2sC = c2sC := by
  unfold cameraStep
  rw [show getP c2sC 1 = c2bB from rfl,
    if_neg (by
      simp only [c2bB, viewFar, Vec3.distanceToSquared, Vec3.sub, Vec3.lengthSq,
        cameraSafeRadiusSq, CAMERA_SAFE_RADIUS]
      norm_num)]

theorem c2_c2' : cameraStep viewFar 2 c2sC = c2sC := by
  unfold cameraStep
  rw [show getP c2sC 2 = c2cC from rfl,
    if_neg (by
      simp only [c2cC, viewFar, Vec3.distanceToSquared, Vec3.sub, Vec3.lengthSq,
        cameraSafeRadiusSq, CAMERA_SAFE_RADIUS]
      norm_num)]

theorem c2_pass2Iter : pass2Iter 1 viewFar 3 c2s1 = c2sC := by
  show (List.range 3).foldl (pass2Body 1 viewFar 3) c2s1 = c2sC
  rw [show List.range 3 = [0, 1, 2] from rfl]
  simp only [List.foldl_cons, List.foldl_nil, pass2Body]
  rw [show innerIdx 3 0 = [1, 2] from rfl, show innerIdx 3 1 = [2] from rfl,
    show innerIdx 3 2 = [] from rfl]
  simp only [List.foldl_cons, List.foldl_nil]
  rw [c2_p2_01, c2_p2_02, c2_b0', c2_c0', c2_p2_12, c2_b1', c2_c1', c2_b2', c2_c2']

/-- C2 counterexample.  Three resting bodies at `0`, `2.1` and `-1` on the
x-axis (radius 1).  Pair (0,1) is examined first in Pass 1 at distance 2.1
≥ minSeparation 2.05, so it takes the soft-aura branch and is never
"flagged touching"; resolving pair (0,2) then pushes body 0 to `0.5775`,
leaving pair (0,1) overlapping after Pass 1.  The claim says Pass 2 only
re-resolves flagged pairs and leaves such a pair to the next frame; in
fact the very first Pass 2 iteration moves body 0, because Pass 2 re-scans
every pair by its current distance. -/
theorem pass2_corrects_unflagged_pair :
    (pass1 1 viewFar 3 0 c2s0).1 = c2s1
    ∧ MIN_DIST_SQ 1 ≤ Vec3.distanceToSquared (getP c2s0 0).position (getP c2s0 1).position
    ∧ Vec3.distanceToSquared (getP c2s1 0).position (getP c2s1 1).position < MIN_DIST_SQ 1
    ∧ (getP (pass2Iter 1 viewFar 3 c2s1) 0).position ≠ (getP c2s1 0).position := by
  refine ⟨by rw [c2_pass1], ?_, ?_, ?_⟩
  · simp only [show getP c2s0 0 = c2a0 from rfl, show getP c2s0 1 = c2b0 from rfl,
      c2a0, c2b0, Vec3.distanceToSquared, Vec3.sub, Vec3.lengthSq, MIN_DIST_SQ, MIN_DIST]
    norm_num
  · simp only [show getP c2s1 0 = c2a1 from rfl, show getP c2s1 1 = c2bA from rfl,
      c2a1, c2bA, Vec3.distanceToSquared, Vec3.sub, Vec3.lengthSq, MIN_DIST_SQ, MIN_DIST]
    norm_num
  · rw [c2_pass2Iter, show getP c2sC 0 = c2aC from rfl, show getP c2s1 0 = c2a1 from rfl]
    intro hEq
    have hx2 := congrArg Vec3.x hEq
    simp only [c2aC, c2a1] at hx2
    norm_num at hx2

/-! ### General evaluation lemmas for collinear configurations -/

theorem boundaryStep_skip (R : ℝ) (i : ℕ) (s : State)
    (h : (getP s i).position.lengthSq ≤ edgeDist R * edgeDist R) :
    boundaryStep R i s = s := by
  unfold boundaryStep
  rw [if_neg (not_lt.2 h)]

theorem cameraStep_skip (cam : Vec3) (i : ℕ) (s : State)
    (h : cameraSafeRadiusSq ≤ Vec3.distanceToSquared (getP s i).position cam) :
    cameraStep cam i s = s := by
  unfold cameraStep
  rw [if_neg (not_lt.2 h)]

theorem pairStep1_skip (R : ℝ) (i j : ℕ) (s : State)
    (h : AURA_RADIUS_SQ R ≤ Vec3.distanceToSquared (getP s i).position (getP s j).position
      ∨ Vec3.distanceToSquared (getP s i).position (getP s j).position < 0.000001) :
    pairStep1 R i j s = s := by
  simp only [pairStep1]
  rw [if_pos h]

theorem pairStep2_skip (R : ℝ) (i j : ℕ) (s : State)
    (h : MIN_DIST_SQ R ≤ Vec3.distanceToSquared (getP s i).position (getP s j).position
      ∨ Vec3.distanceToSquared (getP s i).position (getP s j).position ≤ 0.000001) :
    pairStep2 R i j s = s := by
  simp only [pairStep2]
  rw [if_neg (by
    rintro ⟨h1, h2⟩
    rcases h with h | h
    · exact absurd h1 (not_lt.2 h)
    · exact absurd h2 (not_lt.2 h))]

/-- Pass 1 soft-aura branch on an x-axis pair with the earlier-indexed body
ahead: both bodies receive the quadratic-falloff push along `+x`/`-x`. -/
theorem pairStep1_collinear_aura (R : ℝ) (s : State) (i j : ℕ)
    (xi vi xj vj : ℝ)
    (hpi : getP s i = ⟨⟨xi, 0, 0⟩, ⟨vi, 0, 0⟩, ⟨0, 0, 0⟩, ⟨0, 0, 0⟩⟩)
    (hpj : getP s j = ⟨⟨xj, 0, 0⟩, ⟨vj, 0, 0⟩, ⟨0, 0, 0⟩, ⟨0, 0, 0⟩⟩)
    (hgt : xj < xi)
    (hfloor : 0.000001 ≤ (xi - xj) * (xi - xj))
    (haura : (xi - xj) * (xi - xj) < AURA_RADIUS_SQ R)
    (hfar : MIN_DIST R ≤ xi - xj) :
    pairStep1 R i j s = setPair s i j
      ⟨⟨xi, 0, 0⟩,
       ⟨vi + ((AURA_RADIUS R - (xi - xj)) / AURA_RADIUS R) ^ 2 * 0.01 / (SUB_STEPS : ℝ), 0, 0⟩,
       ⟨0, 0, 0⟩, ⟨0, 0, 0⟩⟩
      ⟨⟨xj, 0, 0⟩,
       ⟨vj - ((AURA_RADIUS R - (xi - xj)) / AURA_RADIUS R) ^ 2 * 0.01 / (SUB_STEPS : ℝ), 0, 0⟩,
       ⟨0, 0, 0⟩, ⟨0, 0, 0⟩⟩ := by
  have hx : (0 : ℝ) < xi - xj := by linarith
  have hds : Vec3.distanceToSquared (getP s i).position (getP s j).position
      = (xi - xj) * (xi - xj) := by
    rw [hpi, hpj]
    simp only [Vec3.distanceToSquared, Vec3.sub, Vec3.lengthSq]
    ring
  simp only [pairStep1]
  rw [hds, if_neg (by push_neg; exact ⟨haura, hfloor⟩), Real.sqrt_mul_self hx.le,
    hpi, hpj, if_neg (not_lt.2 hfar)]
  have htv : ((Vec3.mk xi 0 0).sub ⟨xj, 0, 0⟩).smul (1 / (xi - xj)) = ⟨1, 0, 0⟩ := by
    ext <;> simp only [Vec3.sub, Vec3.smul] <;> field_simp
  rw [htv]
  congr 1 <;> ext <;> simp only [Vec3.addScaled, Vec3.add, Vec3.smul] <;> ring

/-- Pass 1 hard-collision branch on an x-axis pair with the earlier-indexed
body ahead and a closing relative velocity: 55% correction each way plus
the floored impulse. -/
theorem pairStep1_collinear_hard (R : ℝ) (s : State) (i j : ℕ)
    (xi vi xj vj : ℝ)
    (hpi : getP s i = ⟨⟨xi, 0, 0⟩, ⟨vi, 0, 0⟩, ⟨0, 0, 0⟩, ⟨0, 0, 0⟩⟩)
    (hpj : getP s j = ⟨⟨xj, 0, 0⟩, ⟨vj, 0, 0⟩, ⟨0, 0, 0⟩, ⟨0, 0, 0⟩⟩)
    (hgt : xj < xi)
    (hfloor : 0.000001 ≤ (xi - xj) * (xi - xj))
    (haura : (xi - xj) * (xi - xj) < AURA_RADIUS_SQ R)
    (hhard : xi - xj < MIN_DIST R)
    (hclose : vi - vj < 0) :
    pairStep1 R i j s = setPair s i j
      ⟨⟨xi + (MIN_DIST R - (xi - xj)) * 0.55, 0, 0⟩,
       ⟨vi + max (0.005 / (SUB_STEPS : ℝ)) (-(vi - vj) * (1 + RESTITUTION)) * 0.5, 0, 0⟩,
       ⟨0, 0, 0⟩, ⟨0, 0, 0⟩⟩
      ⟨⟨xj - (MIN_DIST R - (xi - xj)) * 0.55, 0, 0⟩,
       ⟨vj - max (0.005 / (SUB_STEPS : ℝ)) (-(vi - vj) * (1 + RESTITUTION)) * 0.5, 0, 0⟩,
       ⟨0, 0, 0⟩, ⟨0, 0, 0⟩⟩ := by
  have hx : (0 : ℝ) < xi - xj := by linarith
  have hds : Vec3.distanceToSquared (getP s i).position (getP s j).position
      = (xi - xj) * (xi - xj) := by
    rw [hpi, hpj]
    simp only [Vec3.distanceToSquared, Vec3.sub, Vec3.lengthSq]
    ring
  simp only [pairStep1]
  rw [hds, if_neg (by push_neg; exact ⟨haura, hfloor⟩), Real.sqrt_mul_self hx.le,
    hpi, hpj, if_pos hhard]
  have htv : ((Vec3.mk xi 0 0).sub ⟨xj, 0, 0⟩).smul (1 / (xi - xj)) = ⟨1, 0, 0⟩ := by
    ext <;> simp only [Vec3.sub, Vec3.smul] <;> field_simp
  rw [htv]
  have hrv : (Vec3.mk vi 0 0).dot ⟨1, 0, 0⟩ - (Vec3.mk vj 0 0).dot ⟨1, 0, 0⟩ = vi - vj := by
    simp only [Vec3.dot]; ring
  rw [hrv, if_pos hclose]
  congr 1 <;> ext <;> simp only [Vec3.addScaled, Vec3.add, Vec3.smul] <;> ring

/-- Pass 4 idle-diffusion push on an x-axis pair with the earlier-indexed
body ahead. -/
theorem pairStep4_collinear (f R : ℝ) (s : State) (i j : ℕ)
    (xi vi xj vj : ℝ)
    (hpi : getP s i = ⟨⟨xi, 0, 0⟩, ⟨vi, 0, 0⟩, ⟨0, 0, 0⟩, ⟨0, 0, 0⟩⟩)
    (hpj : getP s j = ⟨⟨xj, 0, 0⟩, ⟨vj, 0, 0⟩, ⟨0, 0, 0⟩, ⟨0, 0, 0⟩⟩)
    (hgt : xj < xi)
    (hmin : MIN_DIST_SQ R < (xi - xj) * (xi - xj))
    (hmax : (xi - xj) * (xi - xj) < MAX_INFLUENCE_RADIUS_SQ) :
    pairStep4 f R i j s = setPair s i j
      ⟨⟨xi, 0, 0⟩, ⟨vi + f * (1 - (xi - xj) / MAX_INFLUENCE_RADIUS), 0, 0⟩,
       ⟨0, 0, 0⟩, ⟨0, 0, 0⟩⟩
      ⟨⟨xj, 0, 0⟩, ⟨vj - f * (1 - (xi - xj) / MAX_INFLUENCE_RADIUS), 0, 0⟩,
       ⟨0, 0, 0⟩, ⟨0, 0, 0⟩⟩ := by
  have hx : (0 : ℝ) < xi - xj := by linarith
  have hds : Vec3.distanceToSquared (getP s i).position (getP s j).position
      = (xi - xj) * (xi - xj) := by
    rw [hpi, hpj]
    simp only [Vec3.distanceToSquared, Vec3.sub, Vec3.lengthSq]
    ring
  simp only [pairStep4]
  rw [hds, if_pos ⟨hmin, hmax⟩, Real.sqrt_mul_self hx.le, hpi, hpj]
  have htv : ((Vec3.mk xi 0 0).sub ⟨xj, 0, 0⟩).smul (1 / (xi - xj)) = ⟨1, 0, 0⟩ := by
    ext <;> simp only [Vec3.sub, Vec3.smul] <;> field_simp
  rw [htv]
  congr 1 <;> ext <;> simp only [Vec3.addScaled, Vec3.add, Vec3.smul] <;> ring

/-- Pass 3 on an x-axis body whose damped speed exceeds the cap: the clamp
is exact. -/
theorem integrateP_collinear_clamp (x v : ℝ) (hv : 0 < v)
    (hclamp : maxSpeed < v * dampingFactor) :
    integrateP ⟨⟨x, 0, 0⟩, ⟨v, 0, 0⟩, ⟨0, 0, 0⟩, ⟨0, 0, 0⟩⟩
      = ⟨⟨x + maxSpeed, 0, 0⟩, ⟨maxSpeed, 0, 0⟩, ⟨0, 0, 0⟩, ⟨0, 0, 0⟩⟩ := by
  have hdpos : (0 : ℝ) < dampingFactor := by rw [dampingFactor_eq]; exact d99_pos
  have hvd : (0 : ℝ) < v * dampingFactor := mul_pos hv hdpos
  simp only [integrateP]
  have hlen : ((Vec3.mk v 0 0).smul dampingFactor).length = v * dampingFactor := by
    apply sqrt_eval hvd.le
    simp only [Vec3.smul, Vec3.lengthSq]
    ring
  have hv2 : ((Vec3.mk v 0 0).smul dampingFactor).setLength maxSpeed
      = ⟨maxSpeed, 0, 0⟩ := by
    rw [Vec3.setLength, hlen]
    ext <;> simp only [Vec3.smul] <;> field_simp
  rw [if_pos (by
    simp only [Vec3.smul, Vec3.lengthSq]
    nlinarith [maxSpeed_pos]), hv2]
  ext <;> simp only [Vec3.add] <;> ring

/-- Pass 3 on an x-axis body whose damped speed is within the cap. -/
theorem integrateP_collinear_noclamp (x v : ℝ)
    (h : (v * dampingFactor) * (v * dampingFactor) ≤ maxSpeed * maxSpeed) :
    integrateP ⟨⟨x, 0, 0⟩, ⟨v, 0, 0⟩, ⟨0, 0, 0⟩, ⟨0, 0, 0⟩⟩
      = ⟨⟨x + v * dampingFactor, 0, 0⟩, ⟨v * dampingFactor, 0, 0⟩,
         ⟨0, 0, 0⟩, ⟨0, 0, 0⟩⟩ := by
  simp only [integrateP]
  rw [if_neg (by
    simp only [Vec3.smul, Vec3.lengthSq]
    intro hcon
    nlinarith)]
  ext <;> simp only [Vec3.smul, Vec3.add] <;> ring

/-! ### Claim C3: the speed bound after step() -- counterexample trace.

A "front" body at x = 2.05002 moving at 0.2008 and a "chaser" at the
origin moving at 0.3 toward it.  Sub-step 0: the pair sits in the soft
aura (distance 2.05002, just beyond minSeparation 2.05), so the front
gains the aura push; the chaser is clamped to exactly maxSpeed by Pass 3.
Sub-step 1: the damped front (speed just under 0.2) is caught by the
chaser (hard collision, floored impulse 0.00125), its damped speed then
exceeds 0.2 so Pass 3 clamps it to exactly maxSpeed; Pass 4 (which fires
regardless of energy, see C1) then adds a positive push on top, ending
the step with speed strictly above maxSpeed. -/

def c3p0 : Particle := ⟨⟨2.05002, 0, 0⟩, ⟨0.2008, 0, 0⟩, ⟨0, 0, 0⟩, ⟨0, 0, 0⟩⟩

def c3q0 : Particle := ⟨⟨0, 0, 0⟩, ⟨0.3, 0, 0⟩, ⟨0, 0, 0⟩, ⟨0, 0, 0⟩⟩

def c3s0 : State := [c3p0, c3q0]

def c3pA : Particle :=
  ⟨⟨2.05002, 0, 0⟩, ⟨0.20096198560032, 0, 0⟩, ⟨0, 0, 0⟩, ⟨0, 0, 0⟩⟩

def c3qA : Particle :=
  ⟨⟨0, 0, 0⟩, ⟨0.29983801439968, 0, 0⟩, ⟨0, 0, 0⟩, ⟨0, 0, 0⟩⟩

def c3sA : State := [c3pA, c3qA]

def c3ke : ℝ := 0.04032064 + 0.29983801439968 * 0.29983801439968

def c3p1 : Particle :=
  ⟨⟨2.05002 + 0.20096198560032 * Real.sqrt 0.99, 0, 0⟩,
   ⟨0.20096198560032 * Real.sqrt 0.99, 0, 0⟩, ⟨0, 0, 0⟩, ⟨0, 0, 0⟩⟩

def c3q1 : Particle := ⟨⟨0.2, 0, 0⟩, ⟨0.2, 0, 0⟩, ⟨0, 0, 0⟩, ⟨0, 0, 0⟩⟩

def c3s1 : State := [c3p1, c3q1]

def c3corr : ℝ := (0.19998 - 0.20096198560032 * Real.sqrt 0.99) * 0.55

def c3p2 : Particle :=
  ⟨⟨2.05002 + 0.20096198560032 * Real.sqrt 0.99 + c3corr, 0, 0⟩,
   ⟨0.20096198560032 * Real.sqrt 0.99 + 0.00125, 0, 0⟩, ⟨0, 0, 0⟩, ⟨0, 0, 0⟩⟩

def c3q2 : Particle :=
  ⟨⟨0.2 - c3corr, 0, 0⟩, ⟨0.19875, 0, 0⟩, ⟨0, 0, 0⟩, ⟨0, 0, 0⟩⟩

def c3s2 : State := [c3p2, c3q2]

def c3gap2 : ℝ := 2.069998 - 0.1 * (0.20096198560032 * Real.sqrt 0.99)

theorem c3_aura : pairStep1 1 0 1 c3s0 = c3sA := by
  rw [pairStep1_collinear_aura 1 c3s0 0 1 2.05002 0.2008 0 0.3 rfl rfl
    (by norm_num)
    (by norm_num)
    (by norm_num [AURA_RADIUS_SQ, AURA_RADIUS])
    (by norm_num [MIN_DIST])]
  rw [show setPair c3s0 0 1 = fun a b => [a, b] from rfl]
  simp only [c3sA]
  refine List.cons_eq_cons.2 ⟨?_, List.cons_eq_cons.2 ⟨?_, rfl⟩⟩ <;> ext <;>
    simp only [c3pA, c3qA, AURA_RADIUS, SUB_STEPS] <;> push_cast <;> norm_num

theorem c3_bnd0_sA : boundaryStep 1 0 c3sA = c3sA := by
  apply boundaryStep_skip
  simp only [show getP c3sA 0 = c3pA from rfl, c3pA, Vec3.lengthSq,
    edgeDist, BOUNDARY_RADIUS]
  norm_num

theorem c3_bnd1_sA : boundaryStep 1 1 c3sA = c3sA := by
  apply boundaryStep_skip
  simp only [show getP c3sA 1 = c3qA from rfl, c3qA, Vec3.lengthSq,
    edgeDist, BOUNDARY_RADIUS]
  norm_num

theorem c3_cam0_sA : cameraStep viewFar 0 c3sA = c3sA := by
  apply cameraStep_skip
  simp only [show getP c3sA 0 = c3pA from rfl, c3pA, viewFar,
    Vec3.distanceToSquared, Vec3.sub, Vec3.lengthSq, cameraSafeRadiusSq,
    CAMERA_SAFE_RADIUS]
  norm_num

theorem c3_cam1_sA : cameraStep viewFar 1 c3sA = c3sA := by
  apply cameraStep_skip
  simp only [show getP c3sA 1 = c3qA from rfl, c3qA, viewFar,
    Vec3.distanceToSquared, Vec3.sub, Vec3.lengthSq, cameraSafeRadiusSq,
    CAMERA_SAFE_RADIUS]
  norm_num

theorem c3_body0 : pass1Body 1 viewFar 2 0 (c3s0, 0) 0 = (c3sA, 0.04032064) := by
  simp only [pass1Body]
  rw [show innerIdx 2 0 = [1] from rfl]
  simp only [List.foldl_cons, List.foldl_nil]
  rw [c3_aura, c3_bnd0_sA, c3_cam0_sA]
  norm_num [show getP c3s0 0 = c3p0 from rfl, c3p0, Vec3.lengthSq]

theorem c3_body1 : pass1Body 1 viewFar 2 0 (c3sA, 0.04032064) 1 = (c3sA, c3ke) := by
  simp only [pass1Body]
  rw [show innerIdx 2 1 = [] from rfl]
  simp only [List.foldl_nil]
  rw [c3_bnd1_sA, c3_cam1_sA]
  norm_num [show getP c3sA 1 = c3qA from rfl, c3qA, Vec3.lengthSq, c3ke]

theorem c3_pass1 : pass1 1 viewFar 2 0 c3s0 = (c3sA, c3ke) := by
  show (List.range 2).foldl (pass1Body 1 viewFar 2 0) (c3s0, 0) = (c3sA, c3ke)
  rw [show List.range 2 = [0, 1] from rfl]
  simp only [List.foldl_cons, List.foldl_nil]
  rw [c3_body0, c3_body1]

theorem c3_pair2skip_sA : pairStep2 1 0 1 c3sA = c3sA := by
  apply pairStep2_skip
  left
  simp only [show getP c3sA 0 = c3pA from rfl, show getP c3sA 1 = c3qA from rfl,
    c3pA, c3qA, Vec3.distanceToSquared, Vec3.sub, Vec3.lengthSq,
    MIN_DIST_SQ, MIN_DIST]
  norm_num

theorem c3_pass2Iter : pass2Iter 1 viewFar 2 c3sA = c3sA := by
  show (List.range 2).foldl (pass2Body 1 viewFar 2) c3sA = c3sA
  rw [show List.range 2 = [0, 1] from rfl]
  simp only [List.foldl_cons, List.foldl_nil, pass2Body]
  rw [show innerIdx 2 0 = [1] from rfl, show innerIdx 2 1 = [] from rfl]
  simp only [List.foldl_cons, List.foldl_nil]
  rw [c3_pair2skip_sA, c3_bnd0_sA, c3_cam0_sA, c3_bnd1_sA, c3_cam1_sA]

theorem c3_pass2 : pass2 1 viewFar 2 c3sA = c3sA := by
  unfold pass2
  rw [show List.range (SOLVER_ITERATIONS - 1) = [0, 1, 2, 3, 4] from rfl]
  simp only [List.foldl_cons, List.foldl_nil]
  rw [c3_pass2Iter, c3_pass2Iter, c3_pass2Iter, c3_pass2Iter, c3_pass2Iter]

theorem c3_int_p0 : integrateP c3pA = c3p1 := by
  rw [show c3pA = ⟨⟨2.05002, 0, 0⟩, ⟨0.20096198560032, 0, 0⟩,
      ⟨0, 0, 0⟩, ⟨0, 0, 0⟩⟩ from rfl,
    integrateP_collinear_noclamp 2.05002 0.20096198560032 (by
      simp only [dampingFactor_eq, maxSpeed, SUB_STEPS]
      push_cast
      nlinarith [d99_sq]),
    dampingFactor_eq]
  rfl

theorem c3_int_q0 : integrateP c3qA = c3q1 := by
  rw [show c3qA = ⟨⟨0, 0, 0⟩, ⟨0.29983801439968, 0, 0⟩,
      ⟨0, 0, 0⟩, ⟨0, 0, 0⟩⟩ from rfl,
    integrateP_collinear_clamp 0 0.29983801439968 (by norm_num) (by
      simp only [dampingFactor_eq, maxSpeed, SUB_STEPS]
      push_cast
      nlinarith [d99_lb])]
  ext <;> simp only [c3q1, maxSpeed, SUB_STEPS] <;> push_cast <;> norm_num

theorem c3_pass3 : pass3 2 c3sA = c3s1 := by
  unfold pass3
  rw [show List.range 2 = [0, 1] from rfl]
  simp only [List.foldl_cons, List.foldl_nil, integrateBody]
  rw [show getP c3sA 0 = c3pA from rfl, c3_int_p0,
    show c3sA.set 0 c3p1 = [c3p1, c3qA] from rfl,
    show getP [c3p1, c3qA] 1 = c3qA from rfl, c3_int_q0]
  rfl

theorem c3_sub0 : subStep 1 viewFar 2 c3s0 0 = c3s1 := by
  unfold subStep
  rw [c3_pass1]
  simp only
  rw [if_neg (by norm_num [SUB_STEPS]), c3_pass2, c3_pass3]

theorem c3_hard : pairStep1 1 0 1 c3s1 = c3s2 := by
  rw [pairStep1_collinear_hard 1 c3s1 0 1
    (2.05002 + 0.20096198560032 * Real.sqrt 0.99)
    (0.20096198560032 * Real.sqrt 0.99) 0.2 0.2 rfl rfl
    (by nlinarith [d99_lb])
    (by nlinarith [d99_lb, d99_ub])
    (by simp only [AURA_RADIUS_SQ, AURA_RADIUS]; nlinarith [d99_lb, d99_ub])
    (by simp only [MIN_DIST]; nlinarith [d99_ub])
    (by nlinarith [d99_ub])]
  rw [show setPair c3s1 0 1 = fun a b => [a, b] from rfl]
  have hmax : max (0.005 / (SUB_STEPS : ℝ))
      (-(0.20096198560032 * Real.sqrt 0.99 - 0.2) * (1 + RESTITUTION))
      = 0.005 / (SUB_STEPS : ℝ) := by
    apply max_eq_left
    simp only [RESTITUTION, SUB_STEPS]
    push_cast
    nlinarith [d99_lb]
  simp only [c3s2]
  refine List.cons_eq_cons.2 ⟨?_, List.cons_eq_cons.2 ⟨?_, rfl⟩⟩ <;> ext <;>
    simp only [hmax] <;>
    simp only [c3p2, c3q2, c3corr, MIN_DIST, RESTITUTION, SUB_STEPS] <;>
    push_cast <;> norm_num <;> ring

theorem c3_bnd0_s2 : boundaryStep 1 0 c3s2 = c3s2 := by
  apply boundaryStep_skip
  simp only [show getP c3s2 0 = c3p2 from rfl, c3p2, c3corr, Vec3.lengthSq,
    edgeDist, BOUNDARY_RADIUS]
  nlinarith [d99_lb, d99_ub]

theorem c3_bnd1_s2 : boundaryStep 1 1 c3s2 = c3s2 := by
  apply boundaryStep_skip
  simp only [show getP c3s2 1 = c3q2 from rfl, c3q2, c3corr, Vec3.lengthSq,
    edgeDist, BOUNDARY_RADIUS]
  nlinarith [d99_lb, d99_ub]

theorem c3_cam0_s2 : cameraStep viewFar 0 c3s2 = c3s2 := by
  apply cameraStep_skip
  simp only [show getP c3s2 0 = c3p2 from rfl, c3p2, c3corr, viewFar,
    Vec3.distanceToSquared, Vec3.sub, Vec3.lengthSq, cameraSafeRadiusSq,
    CAMERA_SAFE_RADIUS]
  nlinarith [mul_self_nonneg (2.05002 + 0.20096198560032 * Real.sqrt 0.99 +
    (0.19998 - 0.20096198560032 * Real.sqrt 0.99) * 0.55 - 0)]

theorem c3_cam1_s2 : cameraStep viewFar 1 c3s2 = c3s2 := by
  apply cameraStep_skip
  simp only [show getP c3s2 1 = c3q2 from rfl, c3q2, c3corr, viewFar,
    Vec3.distanceToSquared, Vec3.sub, Vec3.lengthSq, cameraSafeRadiusSq,
    CAMERA_SAFE_RADIUS]
  nlinarith [mul_self_nonneg (0.2 -
    (0.19998 - 0.20096198560032 * Real.sqrt 0.99) * 0.55 - 0)]

theorem c3_body0B : pass1Body 1 viewFar 2 1 (c3s1, 0) 0 = (c3s2, 0) := by
  simp only [pass1Body]
  rw [show innerIdx 2 0 = [1] from rfl]
  simp only [List.foldl_cons, List.foldl_nil]
  rw [c3_hard, c3_bnd0_s2, c3_cam0_s2]
  norm_num

theorem c3_body1B : pass1Body 1 viewFar 2 1 (c3s2, 0) 1 = (c3s2, 0) := by
  simp only [pass1Body]
  rw [show innerIdx 2 1 = [] from rfl]
  simp only [List.foldl_nil]
  rw [c3_bnd1_s2, c3_cam1_s2]
  norm_num

theorem c3_pass1B : pass1 1 viewFar 2 1 c3s1 = (c3s2, 0) := by
  show (List.range 2).foldl (pass1Body 1 viewFar 2 1) (c3s1, 0) = (c3s2, 0)
  rw [show List.range 2 = [0, 1] from rfl]
  simp only [List.foldl_cons, List.foldl_nil]
  rw [c3_body0B, c3_body1B]

theorem c3_pair2skip_s2 : pairStep2 1 0 1 c3s2 = c3s2 := by
  apply pairStep2_skip
  left
  have hds : Vec3.distanceToSquared (getP c3s2 0).position (getP c3s2 1).position
      = c3gap2 * c3gap2 := by
    simp only [show getP c3s2 0 = c3p2 from rfl, show getP c3s2 1 = c3q2 from rfl,
      c3p2, c3q2, c3corr, c3gap2, Vec3.distanceToSquared, Vec3.sub, Vec3.lengthSq]
    ring
  rw [hds]
  simp only [MIN_DIST_SQ, MIN_DIST, c3gap2]
  nlinarith [d99_ub,
    mul_self_nonneg (2.069998 - 0.1 * (0.20096198560032 * Real.sqrt 0.99) - 2.05)]

theorem c3_pass2IterB : pass2Iter 1 viewFar 2 c3s2 = c3s2 := by
  show (List.range 2).foldl (pass2Body 1 viewFar 2) c3s2 = c3s2
  rw [show List.range 2 = [0, 1] from rfl]
  simp only [List.foldl_cons, List.foldl_nil, pass2Body]
  rw [show innerIdx 2 0 = [1] from rfl, show innerIdx 2 1 = [] from rfl]
  simp only [List.foldl_cons, List.foldl_nil]
  rw [c3_pair2skip_s2, c3_bnd0_s2, c3_cam0_s2, c3_bnd1_s2, c3_cam1_s2]

theorem c3_pass2B : pass2 1 viewFar 2 c3s2 = c3s2 := by
  unfold pass2
  rw [show List.range (SOLVER_ITERATIONS - 1) = [0, 1, 2, 3, 4] from rfl]
  simp only [List.foldl_cons, List.foldl_nil]
  rw [c3_pass2IterB, c3_pass2IterB, c3_pass2IterB, c3_pass2IterB, c3_pass2IterB]

def c3p3 : Particle :=
  ⟨⟨2.05002 + 0.20096198560032 * Real.sqrt 0.99 + c3corr + 0.2, 0, 0⟩,
   ⟨0.2, 0, 0⟩, ⟨0, 0, 0⟩, ⟨0, 0, 0⟩⟩

def c3q3 : Particle :=
  ⟨⟨0.2 - c3corr + 0.19875 * Real.sqrt 0.99, 0, 0⟩,
   ⟨0.19875 * Real.sqrt 0.99, 0, 0⟩, ⟨0, 0, 0⟩, ⟨0, 0, 0⟩⟩

def c3s3 : State := [c3p3, c3q3]

def c3gap3 : ℝ :=
  2.269998 - 0.1 * (0.20096198560032 * Real.sqrt 0.99) - 0.19875 * Real.sqrt 0.99

def c3push : ℝ := 0.05 * 0.003 * (1 - c3gap3 / 30)

def c3p4 : Particle :=
  ⟨⟨2.05002 + 0.20096198560032 * Real.sqrt 0.99 + c3corr + 0.2, 0, 0⟩,
   ⟨0.2 + c3push, 0, 0⟩, ⟨0, 0, 0⟩, ⟨0, 0, 0⟩⟩

def c3q4 : Particle :=
  ⟨⟨0.2 - c3corr + 0.19875 * Real.sqrt 0.99, 0, 0⟩,
   ⟨0.19875 * Real.sqrt 0.99 - c3push, 0, 0⟩, ⟨0, 0, 0⟩, ⟨0, 0, 0⟩⟩

def c3s4 : State := [c3p4, c3q4]

theorem c3_int_p1 : integrateP c3p2 = c3p3 := by
  rw [show c3p2 = (⟨⟨2.05002 + 0.20096198560032 * Real.sqrt 0.99 + c3corr, 0, 0⟩,
      ⟨0.20096198560032 * Real.sqrt 0.99 + 0.00125, 0, 0⟩,
      ⟨0, 0, 0⟩, ⟨0, 0, 0⟩⟩ : Particle) from rfl,
    integrateP_collinear_clamp
      (2.05002 + 0.20096198560032 * Real.sqrt 0.99 + c3corr)
      (0.20096198560032 * Real.sqrt 0.99 + 0.00125)
      (by nlinarith [d99_lb])
      (by
        simp only [dampingFactor_eq, maxSpeed, SUB_STEPS]
        push_cast
        nlinarith [d99_sq, d99_lb])]
  ext <;> simp only [c3p3, maxSpeed, SUB_STEPS] <;> push_cast <;> norm_num

theorem c3_int_q1 : integrateP c3q2 = c3q3 := by
  rw [show c3q2 = (⟨⟨0.2 - c3corr, 0, 0⟩, ⟨0.19875, 0, 0⟩,
      ⟨0, 0, 0⟩, ⟨0, 0, 0⟩⟩ : Particle) from rfl,
    integrateP_collinear_noclamp (0.2 - c3corr) 0.19875 (by
      simp only [dampingFactor_eq, maxSpeed, SUB_STEPS]
      push_cast
      nlinarith [d99_sq]),
    dampingFactor_eq]
  rfl

theorem c3_pass3B : pass3 2 c3s2 = c3s3 := by
  unfold pass3
  rw [show List.range 2 = [0, 1] from rfl]
  simp only [List.foldl_cons, List.foldl_nil, integrateBody]
  rw [show getP c3s2 0 = c3p2 from rfl, c3_int_p1,
    show c3s2.set 0 c3p3 = [c3p3, c3q2] from rfl,
    show getP [c3p3, c3q2] 1 = c3q2 from rfl, c3_int_q1]
  rfl

theorem c3_pair4 :
    pairStep4 ((ENERGY_THRESHOLD - 0) * 0.003) 1 0 1 c3s3 = c3s4 := by
  rw [pairStep4_collinear ((ENERGY_THRESHOLD - 0) * 0.003) 1 c3s3 0 1
    (2.05002 + 0.20096198560032 * Real.sqrt 0.99 + c3corr + 0.2) 0.2
    (0.2 - c3corr + 0.19875 * Real.sqrt 0.99) (0.19875 * Real.sqrt 0.99)
    rfl rfl
    (by simp only [c3corr]; nlinarith [d99_lb, d99_ub])
    (by
      simp only [c3corr, MIN_DIST_SQ, MIN_DIST]
      nlinarith [d99_lb, d99_ub,
        mul_self_nonneg (2.269998 - 0.1 * (0.20096198560032 * Real.sqrt 0.99)
          - 0.19875 * Real.sqrt 0.99 - 2.05)])
    (by
      simp only [c3corr, MAX_INFLUENCE_RADIUS_SQ, MAX_INFLUENCE_RADIUS,
        BOUNDARY_RADIUS]
      nlinarith [d99_lb, d99_ub])]
  rw [show setPair c3s3 0 1 = fun a b => [a, b] from rfl]
  simp only [c3s4]
  refine List.cons_eq_cons.2 ⟨?_, List.cons_eq_cons.2 ⟨?_, rfl⟩⟩ <;> ext <;>
    simp only [c3p4, c3q4, c3push, c3gap3, c3corr, ENERGY_THRESHOLD,
      MAX_INFLUENCE_RADIUS, BOUNDARY_RADIUS] <;>
    norm_num <;> ring

theorem c3_pass4 : pass4 ((ENERGY_THRESHOLD - 0) * 0.003) 1 2 c3s3 = c3s4 := by
  unfold pass4
  rw [show List.range 2 = [0, 1] from rfl]
  simp only [List.foldl_cons, List.foldl_nil]
  rw [show innerIdx 2 0 = [1] from rfl, show innerIdx 2 1 = [] from rfl]
  simp only [List.foldl_cons, List.foldl_nil]
  rw [c3_pair4]

theorem c3_sub1 : subStep 1 viewFar 2 c3s1 1 = c3s4 := by
  unfold subStep
  rw [c3_pass1B]
  simp only
  rw [if_pos (by norm_num [SUB_STEPS, ENERGY_THRESHOLD]), c3_pass2B, c3_pass3B,
    c3_pass4]

theorem c3_step : step 1 viewFar 2 c3s0 = c3s4 := by
  show (List.range SUB_STEPS).foldl (subStep 1 viewFar 2) c3s0 = c3s4
  rw [show List.range SUB_STEPS = [0, 1] from rfl]
  simp only [List.foldl_cons, List.foldl_nil]
  rw [c3_sub0, c3_sub1]

/-- C3 (counterexample).  The speed bound `|velocity| ≤ maxSpeed` after a
completed `step()` is violated: for a front body at `(2.05002,0,0)` with
velocity `(0.2008,0,0)` chased by a body at the origin with velocity
`(0.3,0,0)` (viewer far away, bodyRadius 1), the front body's Pass 3 clamp
binds to exactly `maxSpeed` on the final sub-step, and the Pass 4
idle-diffusion push (which fires regardless of kinetic energy, see C1)
then adds a strictly positive increment, so the body leaves `step()` with
speed strictly greater than `maxSpeed`. -/
theorem speed_bound_violated :
    maxSpeed < (getP (step 1 viewFar c3s0.length c3s0) 0).velocity.length := by
  rw [show c3s0.length = 2 from rfl, c3_step, show getP c3s4 0 = c3p4 from rfl]
  have hpush : (0 : ℝ) < c3push := by
    simp only [c3push, c3gap3]
    nlinarith [d99_lb, d99_ub]
  have hv : c3p4.velocity.length = 0.2 + c3push := by
    rw [Vec3.length]
    exact sqrt_eval (by nlinarith) (by
      simp only [c3p4, Vec3.lengthSq]
      ring)
  rw [hv]
  simp only [maxSpeed, SUB_STEPS]
  push_cast
  nlinarith

/-! ### Claim C7: construction termination and properties -/

/-- Every draw from the spawn cube lies within half-width
`BOUNDARY_RADIUS * 0.75` of the origin on each axis, provided the random
stream stays in `[0, 1)`. -/
theorem cubeDraw_in_cube (rand : ℕ → ℝ) (cur : ℕ)
    (hr : ∀ n, 0 ≤ rand n ∧ rand n < 1) :
    |(cubeDraw rand cur).x| ≤ BOUNDARY_RADIUS * 0.75
    ∧ |(cubeDraw rand cur).y| ≤ BOUNDARY_RADIUS * 0.75
    ∧ |(cubeDraw rand cur).z| ≤ BOUNDARY_RADIUS * 0.75 := by
  refine ⟨?_, ?_, ?_⟩ <;>
    simp only [cubeDraw, BOUNDARY_RADIUS] <;>
    rw [abs_le] <;>
    constructor <;>
    nlinarith [(hr cur).1, (hr cur).2, (hr (cur + 1)).1, (hr (cur + 1)).2,
      (hr (cur + 2)).1, (hr (cur + 2)).2]

/-- The placement loop always returns some cube draw. -/
theorem place_draw (rand : ℕ → ℝ) (prev : List Particle) (mds : ℝ) :
    ∀ (fuel cur : ℕ), ∃ m, (place rand prev mds cur fuel).1 = cubeDraw rand m := by
  intro fuel
  induction fuel with
  | zero => intro cur; exact ⟨cur, rfl⟩
  | succ f ih =>
      intro cur
      by_cases hf : f = 0
      · subst hf
        exact ⟨cur, by simp [place]⟩
      · by_cases h : overlapsPrev prev mds (cubeDraw rand cur)
        · obtain ⟨m, hm⟩ := ih (cur + 3)
          refine ⟨m, ?_⟩
          simp only [place, if_neg hf, if_pos h]
          exact hm
        · exact ⟨cur, by simp only [place, if_neg hf, if_pos h, if_neg h]⟩

/-- Full characterization of the placement loop: with positive fuel it
stops at the first candidate `k` that either does not overlap the previous
bodies or exhausts the fuel, having drawn (and rejected) every earlier
candidate. -/
theorem place_spec (rand : ℕ → ℝ) (prev : List Particle) (mds : ℝ) :
    ∀ (fuel cur : ℕ), 0 < fuel →
    ∃ k, k + 1 ≤ fuel
      ∧ (place rand prev mds cur fuel).1 = cubeDraw rand (cur + 3 * k)
      ∧ (place rand prev mds cur fuel).2 = cur + 3 * k + 3
      ∧ (∀ m < k, overlapsPrev prev mds (cubeDraw rand (cur + 3 * m)))
      ∧ (k + 1 = fuel ∨ ¬ overlapsPrev prev mds (cubeDraw rand (cur + 3 * k))) := by
  intro fuel
  induction fuel with
  | zero => intro cur h; exact absurd h (lt_irrefl 0)
  | succ f ih =>
      intro cur _
      by_cases hf : f = 0
      · subst hf
        refine ⟨0, le_refl 1, by simp [place], by simp [place], ?_, Or.inl rfl⟩
        intro m hm
        exact absurd hm (Nat.not_lt_zero m)
      · by_cases h : overlapsPrev prev mds (cubeDraw rand cur)
        · obtain ⟨k, hk1, hk2, hk3, hk4, hk5⟩ := ih (cur + 3) (Nat.pos_of_ne_zero hf)
          have harith : ∀ t : ℕ, cur + 3 * (t + 1) = cur + 3 + 3 * t := by
            intro t; ring
          refine ⟨k + 1, Nat.succ_le_succ hk1, ?_, ?_, ?_, ?_⟩
          · simp only [place, if_neg hf, if_pos h]
            rw [harith k]
            exact hk2
          · simp only [place, if_neg hf, if_pos h]
            rw [harith k]
            exact hk3
          · intro m hm
            cases m with
            | zero => simpa using h
            | succ m' =>
                rw [harith m']
                exact hk4 m' (Nat.lt_of_succ_lt_succ hm)
          · rcases hk5 with h5 | h5
            · exact Or.inl (by omega)
            · refine Or.inr ?_
              rw [harith k]
              exact h5
        · refine ⟨0, Nat.succ_le_succ (Nat.zero_le f), ?_, ?_, ?_, Or.inr ?_⟩
          · simp [place, if_neg hf, if_neg h]
          · simp [place, if_neg hf, if_neg h]
          · intro m hm
            exact absurd hm (Nat.not_lt_zero m)
          · simpa using h

/-- The loop body of `initParticles`. -/
def initBody (rand : ℕ → ℝ) (R : ℝ) (acc : List Particle × ℕ) (_ : ℕ) :
    List Particle × ℕ :=
  let pr := place rand acc.1 ((R * 2.1) * (R * 2.1)) acc.2 201
  (acc.1 ++ [mkParticle rand pr.1 pr.2], pr.2 + 6)

theorem initParticles_eq_foldl (rand : ℕ → ℝ) (count : ℕ) (R : ℝ) :
    initParticles rand count R
      = ((List.range count).foldl (initBody rand R) ([], 0)).1 := rfl

theorem initBody_foldl_length (rand : ℕ → ℝ) (R : ℝ) :
    ∀ (l : List ℕ) (acc : List Particle × ℕ),
      ((l.foldl (initBody rand R) acc).1).length = acc.1.length + l.length := by
  intro l
  induction l with
  | nil => intro acc; simp
  | cons x xs ih =>
      intro acc
      rw [List.foldl_cons, ih]
      simp only [initBody, List.length_append, List.length_cons, List.length_nil]
      omega

theorem initBody_foldl_mem (rand : ℕ → ℝ) (R : ℝ) (P : Particle → Prop)
    (hmk : ∀ pos cur, (∃ m, pos = cubeDraw rand m) → P (mkParticle rand pos cur)) :
    ∀ (l : List ℕ) (acc : List Particle × ℕ),
      (∀ p ∈ acc.1, P p) → ∀ p ∈ (l.foldl (initBody rand R) acc).1, P p := by
  intro l
  induction l with
  | nil => intro acc hacc; simpa using hacc
  | cons x xs ih =>
      intro acc hacc
      rw [List.foldl_cons]
      apply ih
      intro p hp
      rcases List.mem_append.1 hp with hold | hnew
      · exact hacc p hold
      · rw [List.mem_singleton.1 hnew]
        apply hmk
        obtain ⟨m, hm⟩ := place_draw rand acc.1 ((R * 2.1) * (R * 2.1)) 201 acc.2
        exact ⟨m, hm⟩

/-- C7.  The construction terminates and produces exactly `count` bodies,
each with zero initial velocity and position inside the spawn cube of
half-width `BOUNDARY_RADIUS * 0.75` (given a random stream in `[0, 1)`);
and the per-body placement loop, run with its full budget of 201 draws,
stops at the first candidate at squared distance at least
`(bodyRadius * 2.1)²` from every previously placed body, having rejected
every earlier candidate — unless all 200 capped attempts overlap, in which
case the 201st candidate is accepted regardless of overlap. -/
theorem construction_properties (rand : ℕ → ℝ) (count : ℕ) (R : ℝ)
    (hr : ∀ n, 0 ≤ rand n ∧ rand n < 1) :
    (initParticles rand count R).length = count
    ∧ (∀ p ∈ initParticles rand count R, p.velocity = ⟨0, 0, 0⟩)
    ∧ (∀ p ∈ initParticles rand count R,
        |p.position.x| ≤ BOUNDARY_RADIUS * 0.75
        ∧ |p.position.y| ≤ BOUNDARY_RADIUS * 0.75
        ∧ |p.position.z| ≤ BOUNDARY_RADIUS * 0.75)
    ∧ (∀ (prev : List Particle) (cur : ℕ),
        ∃ k ≤ 200,
          (place rand prev ((R * 2.1) * (R * 2.1)) cur 201).1
              = cubeDraw rand (cur + 3 * k)
          ∧ (∀ m < k, overlapsPrev prev ((R * 2.1) * (R * 2.1))
              (cubeDraw rand (cur + 3 * m)))
          ∧ (k = 200 ∨ ¬ overlapsPrev prev ((R * 2.1) * (R * 2.1))
              (cubeDraw rand (cur + 3 * k)))) := by
  refine ⟨?_, ?_, ?_, ?_⟩
  · rw [initParticles_eq_foldl, initBody_foldl_length]
    simp
  · rw [initParticles_eq_foldl]
    apply initBody_foldl_mem rand R (fun p => p.velocity = ⟨0, 0, 0⟩)
    · intro pos cur _
      rfl
    · intro p hp
      exact absurd hp (List.not_mem_nil p)
  · rw [initParticles_eq_foldl]
    apply initBody_foldl_mem rand R
    · intro pos cur hdraw
      obtain ⟨m, hm⟩ := hdraw
      rw [hm]
      exact cubeDraw_in_cube rand m hr
    · intro p hp
      exact absurd hp (List.not_mem_nil p)
  · intro prev cur
    obtain ⟨k, hk1, hk2, _, hk4, hk5⟩ :=
      place_spec rand prev ((R * 2.1) * (R * 2.1)) 201 cur (by norm_num)
    refine ⟨k, by omega, hk2, hk4, ?_⟩
    rcases hk5 with h | h
    · exact Or.inl (by omega)
    · exact Or.inr h

/-- Witness for C7 at the constant stream `1/2`, two bodies, radius 1. -/
theorem construction_properties_witness :
    (initParticles (fun _ => (1 : ℝ) / 2) 2 1).length = 2
    ∧ (∀ p ∈ initParticles (fun _ => (1 : ℝ) / 2) 2 1, p.velocity = ⟨0, 0, 0⟩)
    ∧ (∀ p ∈ initParticles (fun _ => (1 : ℝ) / 2) 2 1,
        |p.position.x| ≤ BOUNDARY_RADIUS * 0.75
        ∧ |p.position.y| ≤ BOUNDARY_RADIUS * 0.75
        ∧ |p.position.z| ≤ BOUNDARY_RADIUS * 0.75)
    ∧ (∀ (prev : List Particle) (cur : ℕ),
        ∃ k ≤ 200,
          (place (fun _ => (1 : ℝ) / 2) prev ((1 * 2.1) * (1 * 2.1)) cur 201).1
              = cubeDraw (fun _ => (1 : ℝ) / 2) (cur + 3 * k)
          ∧ (∀ m < k, overlapsPrev prev ((1 * 2.1) * (1 * 2.1))
              (cubeDraw (fun _ => (1 : ℝ) / 2) (cur + 3 * m)))
          ∧ (k = 200 ∨ ¬ overlapsPrev prev ((1 * 2.1) * (1 * 2.1))
              (cubeDraw (fun _ => (1 : ℝ) / 2) (cur + 3 * k)))) :=
  construction_properties (fun _ => (1 : ℝ) / 2) 2 1
    (fun _ => ⟨by norm_num, by norm_num⟩)

end Basketballs




















